import Mathlib

/-!
# Vehicle-location service: record ingestion and latest-record view

A shallow embedding of `internal/models/records.go` and `cmd/api/handlers.go`.

Conventions of the embedding.

* A Go `string` is a byte sequence.  It is embedded byte for byte as a Lean
  `String`, each byte standing as the character with that code, so that ASCII
  text reads as itself, `String.length` is the Go `len` and dropping and taking
  characters is Go byte slicing.
* A Go `error` is the text it carries; `none` is the `nil` error.
* A `float64` is embedded as `Float64`: a finite value carried as a rational
  number, or an infinity, or NaN.  The two zeros are one value.  The type also
  holds rationals that no `float64` represents; `strconv.ParseFloat` returns
  representable values only.
* The store behind `*sql.DB` is embedded twice: as the bare outcome of the one
  query (`Rows`, any behaviour the driver may show) and as a two-table state
  (`DB`) on which the two SQL statements of `records.go` are executed.
* Library code on which no statement below turns is passed as a parameter: the
  JSON decoder of the request body, the text form in which the store hands
  back a coordinate bound to a statement, and the `%.6f` formatting verb (the
  statements hold for any formatting; `template.printf6` is the verb itself).
-/

namespace Tcc

/-! ## Values -/

/-- A Go `error`, by its message. -/
abbrev Error := String

/-- Model of Go `float64`. -/
inductive Float64 where
  | fin (q : ℚ)
  | inf (neg : Bool)
  | nan
  deriving DecidableEq

namespace Float64

/-- The zero value of the type, which is what `reflect.Value.IsZero` tests. -/
def isZero : Float64 → Bool
  | fin q => decide (q = 0)
  | _ => false

/-- A finite value lying in the closed interval from `lo` to `hi`. -/
def within (lo hi : ℚ) : Float64 → Bool
  | fin q => decide (lo ≤ q) && decide (q ≤ hi)
  | _ => false

end Float64

/-! ## `internal/models`: the data model -/

/-- The struct `Vehicle` of `vehicles.go`, also a row of table `vehicle`. -/
structure Vehicle where
  Id : Nat
  Name : String
  Color : String
  deriving DecidableEq

/-- The struct `Record` of `records.go`. -/
structure Record where
  Id : Nat
  Lat : Float64
  Lon : Float64
  Time : String
  Name : String
  Color : String
  Vehicle : Nat
  deriving DecidableEq

/-- The struct `Records` of `records.go`. -/
structure Records where
  Data : List Record
  deriving DecidableEq

/-! ## The validation gate

`validate.Struct(record)` of go-playground/validator walks the fields of the
struct in declaration order and runs, for each field that carries a `validate`
tag, the comma-separated checks of the tag from left to right, stopping at the
first one that fails; a field with no tag is not looked at.  It returns the
failures, one per failing field, or `nil` when there is none. -/

/-- One entry of `validator.ValidationErrors`: the field and the failed tag. -/
structure FieldError where
  Field : String
  Tag : String
  deriving DecidableEq

namespace validate

/-- Tag `required` on a `float64`: the value is not the zero value. -/
def requiredFloat (x : Float64) : Bool := !x.isZero

/-- Tag `required` on a `string`: the value is not the empty string. -/
def requiredString (s : String) : Bool := decide (s ≠ "")

/-- Tag `required` on a `uint64`: the value is not zero. -/
def requiredUint (n : Nat) : Bool := decide (n ≠ 0)

/-- Tag `latitude` on a `float64`: the library prints the value in plain decimal
notation and matches it against its latitude pattern, an optional sign and
then either one or two digits (the first not above 8) with an optional
fraction, or 90 with an optional fraction of zeros: the finite values from -90
to 90. -/
def latitude (x : Float64) : Bool := x.within (-90) 90

/-- Tag `longitude` on a `float64`: as `latitude`, for the values from -180 to
180. -/
def longitude (x : Float64) : Bool := x.within (-180) 180

/-- Tag `gt=p` on a `uint64`: the value exceeds the parameter. -/
def gt (p n : Nat) : Bool := decide (n > p)

/-- The checks of one tagged field, in order: the first failing one is
reported. -/
def field (name : String) (checks : List (String × Bool)) : List FieldError :=
  match checks.find? (fun c => !c.2) with
  | some c => [⟨name, c.1⟩]
  | none => []

/-- The call `validate.Struct(record)` on a `Record`, from the struct tags:
`Lat` carries `required,latitude`, `Lon` carries `required,longitude`, `Time`
carries `required`, `Vehicle` carries `required,gt=0`; `Id`, `Name` and `Color`
carry no `validate` tag.  The empty list is the `nil` error. -/
def Struct (r : Record) : List FieldError :=
  field "Lat" [("required", requiredFloat r.Lat), ("latitude", latitude r.Lat)] ++
  field "Lon" [("required", requiredFloat r.Lon), ("longitude", longitude r.Lon)] ++
  field "Time" [("required", requiredString r.Time)] ++
  field "Vehicle" [("required", requiredUint r.Vehicle), ("gt", gt 0 r.Vehicle)]

end validate

/-! ## `strconv.ParseFloat`

The call `strconv.ParseFloat(s, 64)`, after `strconv/atof.go`.  The text is one
of the special values, or a literal: an optional sign, an optional `0x`, digits
with at most one point and possibly underscores between them, and an exponent
(optional and introduced by `e` for a decimal literal, required and introduced
by `p` for a hexadecimal one).  A text that is not such a literal from its
first to its last byte yields zero with `ErrSyntax`.  Otherwise the value is
the `float64` nearest to the number written, ties going to the even
significand; when that is beyond the largest finite value the result is the
infinity of the sign of the literal with `ErrRange`, and a number too small to
be represented becomes zero without error. -/

/-- The two causes carried by `*strconv.NumError`. -/
inductive NumError where
  | ErrSyntax
  | ErrRange
  deriving DecidableEq

namespace strconv

/-- The value of a decimal digit. -/
def decDigit? (c : Char) : Option Nat :=
  if '0' ≤ c ∧ c ≤ '9' then some (c.toNat - 48) else none

/-- The value of a letter used as a hexadecimal digit, in either case. -/
def hexLetter? (c : Char) : Option Nat :=
  if 'a' ≤ c ∧ c ≤ 'f' then some (c.toNat - 87)
  else if 'A' ≤ c ∧ c ≤ 'F' then some (c.toNat - 55)
  else none

/-- An optional leading sign: whether it is a minus, and the rest. -/
def readSign : List Char → Bool × List Char
  | '+' :: t => (false, t)
  | '-' :: t => (true, t)
  | t => (false, t)

/-- What the loop over the mantissa of `readFloat` has seen: a point, a digit,
an underscore; the digits read so far as a number in the base, and how many of
them stood after the point. -/
structure Mantissa where
  sawdot : Bool
  sawdigits : Bool
  underscores : Bool
  value : Nat
  frac : Nat

/-- One more digit of the mantissa. -/
def Mantissa.push (m : Mantissa) (base d : Nat) : Mantissa :=
  { m with sawdigits := true, value := base * m.value + d,
           frac := if m.sawdot then m.frac + 1 else m.frac }

/-- The loop over the mantissa: underscores are passed over, a first point is
noted, digits of the base are read; the loop stops at a second point or at any
other byte.  Returns what was seen and the unread rest. -/
def readMantissa (hex : Bool) : List Char → Mantissa → Mantissa × List Char
  | [], m => (m, [])
  | c :: rest, m =>
    if c = '_' then readMantissa hex rest { m with underscores := true }
    else if c = '.' then
      if m.sawdot then (m, c :: rest) else readMantissa hex rest { m with sawdot := true }
    else
      match decDigit? c with
      | some d => readMantissa hex rest (m.push (if hex then 16 else 10) d)
      | none =>
        if hex then
          match hexLetter? c with
          | some d => readMantissa hex rest (m.push 16 d)
          | none => (m, c :: rest)
        else (m, c :: rest)

/-- The digits of the exponent, underscores passed over: the value (it stops
growing once it has reached 10000), whether an underscore was seen, and the
unread rest. -/
def readExpDigits : List Char → Nat → Bool → Nat × Bool × List Char
  | [], e, u => (e, u, [])
  | c :: rest, e, u =>
    if c = '_' then readExpDigits rest e true
    else
      match decDigit? c with
      | some d => readExpDigits rest (if e < 10000 then e * 10 + d else e) u
      | none => (e, u, c :: rest)

/-- The exponent part: the exponent letter, an optional sign and digits of which
the first must be a digit proper.  Without that letter a decimal literal has
exponent zero and a hexadecimal one is refused.  Returns the exponent, whether
an underscore was seen, and the unread rest. -/
def readExponent (hex : Bool) : List Char → Option (Int × Bool × List Char)
  | [] => if hex then none else some (0, false, [])
  | c :: rest =>
    if (if hex then c = 'p' ∨ c = 'P' else c = 'e' ∨ c = 'E') then
      let (neg, r1) := readSign rest
      match r1 with
      | [] => none
      | d :: _ =>
        if (decDigit? d).isSome then
          let (e, u, r2) := readExpDigits r1 0 false
          some (if neg then -(e : Int) else (e : Int), u, r2)
        else none
    else if hex then none
    else some (0, false, c :: rest)

/-- The last byte seen by `underscoreOK`. -/
inductive Saw where
  | start
  | digit
  | underscore
  | other
  deriving DecidableEq

/-- The scan of `underscoreOK` over the number proper: an underscore must follow
a digit and be followed by a digit. -/
def underscoreScan (hex : Bool) : List Char → Saw → Bool
  | [], saw => decide (saw ≠ .underscore)
  | c :: rest, saw =>
    if (decDigit? c).isSome || (hex && (hexLetter? c).isSome) then underscoreScan hex rest .digit
    else if c = '_' then
      if saw = .digit then underscoreScan hex rest .underscore else false
    else if saw = .underscore then false
    else underscoreScan hex rest .other

/-- The function `underscoreOK`: after an optional sign and an optional base
prefix (which counts as a digit), the scan of the number proper. -/
def underscoreOK (s : List Char) : Bool :=
  let s1 := (readSign s).2
  match s1 with
  | '0' :: c :: t =>
    if c = 'b' ∨ c = 'B' ∨ c = 'o' ∨ c = 'O' ∨ c = 'x' ∨ c = 'X' then
      underscoreScan (decide (c = 'x' ∨ c = 'X')) t .digit
    else underscoreScan false s1 .start
  | _ => underscoreScan false s1 .start

/-- A literal read by `readFloat`: its sign, its base, the digits of the
mantissa as a number, how many of them stood after the point, and the
exponent. -/
structure Literal where
  neg : Bool
  hex : Bool
  value : Nat
  frac : Nat
  exp : Int

/-- The function `readFloat`, required to consume the whole text: sign, base
prefix (`0x` followed by at least one more byte), mantissa with at least one
digit, exponent, nothing left over, and underscores, if any, placed as
`underscoreOK` demands. -/
def readFloat (s : List Char) : Option Literal :=
  let (neg, s1) := readSign s
  let hex : Bool :=
    match s1 with
    | '0' :: x :: _ :: _ => decide (x = 'x' ∨ x = 'X')
    | _ => false
  let s2 := if hex then s1.drop 2 else s1
  let (m, s3) := readMantissa hex s2 ⟨false, false, false, 0, 0⟩
  if !m.sawdigits then none
  else
    match readExponent hex s3 with
    | none => none
    | some (e, u, s4) =>
      if s4 ≠ [] then none
      else if (m.underscores || u) && !underscoreOK s then none
      else some ⟨neg, hex, m.value, m.frac, e⟩

/-- The texts of the special values, compared without regard to case. -/
def special (s : List Char) : Option Float64 :=
  let l := s.map Char.toLower
  if l = "inf".data ∨ l = "+inf".data ∨ l = "infinity".data ∨ l = "+infinity".data then
    some (.inf false)
  else if l = "-inf".data ∨ l = "-infinity".data then some (.inf true)
  else if l = "nan".data then some .nan
  else none

/-- The integer nearest to `num / den`, a tie going to the even one. -/
def roundHalfEven (num den : Nat) : Nat :=
  let q := num / den
  let r := num % den
  if den < 2 * r ∨ (2 * r = den ∧ q % 2 = 1) then q + 1 else q

/-- The number of bits of `n`, counted by halving; `fuel` bounds the number of
steps and `n` itself is enough. -/
def bitLen : Nat → Nat → Nat
  | 0, _ => 0
  | fuel + 1, n => if n = 0 then 0 else bitLen fuel (n / 2) + 1

/-- The largest `e` with `2 ^ e ≤ a / b`, for positive `a` and `b`: the
difference of the bit lengths, or one less. -/
def floorLog2 (a b : Nat) : Int :=
  let e0 : Int := (bitLen a a : Int) - (bitLen b b : Int)
  if (if 0 ≤ e0 then b * 2 ^ e0.toNat ≤ a else b ≤ a * 2 ^ (-e0).toNat) then e0 else e0 - 1

/-- The `float64` nearest to `a / b`, for positive `a` and `b`, as a significand
`m` and the exponent `u` of its unit, the value being `m * 2 ^ u`: the unit is
53 bits below the leading bit of `a / b`, and not below `2 ^ -1074`. -/
def nearest (a b : Nat) : Nat × Int :=
  let u : Int := max (floorLog2 a b) (-1022) - 52
  (if 0 ≤ u then roundHalfEven a (b * 2 ^ u.toNat) else roundHalfEven (a * 2 ^ (-u).toNat) b, u)

/-- The value `m * 2 ^ u`. -/
def toRat (m : Nat) (u : Int) : ℚ :=
  if 0 ≤ u then mkRat ((m : Int) * 2 ^ u.toNat) 1 else mkRat (m : Int) (2 ^ (-u).toNat)

/-- The call `strconv.ParseFloat(s, 64)`: the value and the error. -/
def ParseFloat (s : String) : Float64 × Option NumError :=
  match special s.data with
  | some v => (v, none)
  | none =>
    match readFloat s.data with
    | none => (.fin 0, some .ErrSyntax)
    | some l =>
      if l.value = 0 then (.fin 0, none)
      else
        let sc : Int := if l.hex then l.exp - 4 * (l.frac : Int) else l.exp - (l.frac : Int)
        let base : Nat := if l.hex then 2 else 10
        let a := if 0 ≤ sc then l.value * base ^ sc.toNat else l.value
        let b := if 0 ≤ sc then 1 else base ^ (-sc).toNat
        let (m, u) := nearest a b
        if 0 ≤ u ∧ 2 ^ 1024 ≤ m * 2 ^ u.toNat then (.inf l.neg, some .ErrRange)
        else (.fin (if l.neg then -(toRat m u) else toRat m u), none)

end strconv

/-! ## The store: `database/sql` as `records.go` uses it -/

/-- The destinations of `rows.Scan` in `QueryLatest`, once filled. -/
structure Scanned where
  Id : Nat
  latitude : String
  longitude : String
  Time : String
  Vehicle : Nat
  Name : String
  Color : String
  deriving DecidableEq

/-- A non-nil `*sql.Rows`: for each row that `rows.Next()` delivers, what
`rows.Scan` does with it (fills the destinations or fails), and what
`rows.Err()` reports once `Next` has returned false. -/
structure Rows where
  scans : List (Except Error Scanned)
  err : Option Error

/-- What `db.Query` returns: an error and a nil `*sql.Rows`, or rows and a nil
error. -/
abbrev QueryResult := Except Error Rows

/-- How a Go function ended: it returned an `error` value (`none` is `nil`), or
it panicked. -/
inductive Exit where
  | ret (err : Option Error)
  | panic (msg : String)
  deriving DecidableEq

/-- The run-time panic of a method call through a nil pointer. -/
def nilDeref : String := "runtime error: invalid memory address or nil pointer dereference"

/-- The record one pass of the loop of `QueryLatest` builds from a scanned row:
the scanned fields, and the two coordinates parsed from their text with the
error of `ParseFloat` assigned to the blank identifier. -/
def Scanned.record (s : Scanned) : Record :=
  { Id := s.Id, Lat := (strconv.ParseFloat s.latitude).1,
    Lon := (strconv.ParseFloat s.longitude).1, Time := s.Time,
    Name := s.Name, Color := s.Color, Vehicle := s.Vehicle }

/-- The loop `for rows.Next() { ... }` of `QueryLatest` followed by
`return rows.Err()`: a failing `Scan` returns its error at once, with `data` as
it stands; otherwise the record built from the row is appended. -/
def scanLoop (data : List Record) : List (Except Error Scanned) → Option Error →
    List Record × Option Error
  | [], err => (data, err)
  | .error e :: _, _ => (data, some e)
  | .ok s :: rest, err => scanLoop (data ++ [s.record]) rest err

/-- The method `(r *Records) QueryLatest(db)`, on the outcome of its `db.Query`
call.  `defer rows.Close()` is registered before the error of the query is
looked at: when the query failed, `rows` is nil, `return err` runs the deferred
call on the nil pointer and the function panics instead of returning.  The
first component is `r` as the call leaves it. -/
def Records.QueryLatest (r : Records) (query : QueryResult) : Records × Exit :=
  match query with
  | .error _ => (r, .panic nilDeref)
  | .ok rows =>
    let (data, err) := scanLoop r.Data rows.scans rows.err
    (⟨data⟩, .ret err)

/-- A row of table `record`; the coordinates are held as the text in which
`Scan` hands them to a Go `string`. -/
structure RecordRow where
  id : Nat
  lat : String
  lon : String
  time : String
  vehicle : Nat
  deriving DecidableEq

/-- The handle `db` together with the state of the store behind it.
`down` holds the error with which every statement fails when the store cannot
be reached; `foreignKeys` tells whether the engine enforces the reference from
`record.vehicle` to `vehicle.id`; `text` is the text form in which a `float64`
bound to a statement comes back when the column is scanned into a string;
`execs` counts the `Exec` calls made through the handle; `keys` records that
the identifiers of table `vehicle` are the signed 64-bit integers the store
assigns, read here as non-negative. -/
structure DB where
  down : Option Error
  foreignKeys : Bool
  text : Float64 → String
  vehicle : List Vehicle
  record : List RecordRow
  execs : Nat
  keys : ∀ v ∈ vehicle, v.Id < 2 ^ 63

/-- Byte-wise comparison of two strings, the order of `ORDER BY` on text. -/
def bytesLE : List Char → List Char → Bool
  | [], _ => true
  | _ :: _, [] => false
  | a :: as, b :: bs => decide (a < b) || (decide (a = b) && bytesLE as bs)

/-- `ORDER BY record.time DESC`: the row `a` may stand before the row `b`. -/
def timeDesc (a b : RecordRow × Vehicle) : Prop := bytesLE b.1.time.data a.1.time.data = true

instance : DecidableRel timeDesc := fun a b =>
  inferInstanceAs (Decidable (bytesLE b.1.time.data a.1.time.data = true))

/-- `FROM record INNER JOIN vehicle ON vehicle.id = record.vehicle`. -/
def DB.joined (db : DB) : List (RecordRow × Vehicle) :=
  db.record.flatMap fun rec =>
    (db.vehicle.filter fun v => decide (v.Id = rec.vehicle)).map fun v => (rec, v)

/-- The columns selected from a joined row, as `Scan` fills them. -/
def selected (p : RecordRow × Vehicle) : Scanned :=
  { Id := p.1.id, latitude := p.1.lat, longitude := p.1.lon, Time := p.1.time,
    Vehicle := p.1.vehicle, Name := p.2.Name, Color := p.2.Color }

/-- The rows the query of `QueryLatest` selects: the join, ordered by time
descending, cut at five. -/
def DB.latest (db : DB) : List (RecordRow × Vehicle) :=
  (db.joined.insertionSort timeDesc).take 5

/-- The call `db.Query("SELECT ... ORDER BY record.time DESC LIMIT 5")`. -/
def DB.Query (db : DB) : QueryResult :=
  match db.down with
  | some e => .error e
  | none => .ok ⟨db.latest.map fun p => .ok (selected p), none⟩

/-- The identifier the store assigns to a new row of `record`. -/
def DB.nextId (db : DB) : Nat := (db.record.map RecordRow.id).foldr max 0 + 1

/-- The call `db.Exec("INSERT INTO record (lat, lon, time, vehicle) VALUES
($1, $2, $3, $4)", lat, lon, time, vehicle)`: the error, and the handle
afterwards.  With a connection at hand `database/sql` converts the arguments
and refuses a `uint64` with its high bit set; the statement then goes to the
store. -/
def DB.Exec (db : DB) (lat lon : Float64) (time : String) (vehicle : Nat) : Option Error × DB :=
  let db1 := { db with execs := db.execs + 1 }
  match db.down with
  | some e => (some e, db1)
  | none =>
    if 2 ^ 63 ≤ vehicle then
      (some "sql: converting argument $4 type: uint64 values with high bit set are not supported",
        db1)
    else if db.foreignKeys && !(db.vehicle.any fun v => decide (v.Id = vehicle)) then
      (some "FOREIGN KEY constraint failed", db1)
    else
      (none, { db1 with
        record := db.record ++ [⟨db.nextId, db.text lat, db.text lon, time, vehicle⟩] })

/-- The method `(r *Record) Insert(db)`: one `Exec`, its error returned as it
is. -/
def Record.Insert (r : Record) (db : DB) : Option Error × DB :=
  db.Exec r.Lat r.Lon r.Time r.Vehicle

/-! ## `net/http`: the response writer -/

/-- The request, as far as the two handlers read it. -/
structure Request where
  Method : String
  Path : String
  Body : String
  deriving DecidableEq

/-- The state of an `http.ResponseWriter`: the header map as the handler and
the functions of `net/http` it calls have set it up to the moment the header
is written, the status once the header has been written, and the body written
so far.  The `Content-Type` that the server derives by itself from the first
bytes written when none is set is not part of it. -/
structure ResponseWriter where
  header : List (String × String)
  status : Option Nat
  body : String
  deriving DecidableEq

namespace ResponseWriter

/-- A writer nothing has been written to. -/
def fresh : ResponseWriter := ⟨[], none, ""⟩

/-- `w.Header().Add(k, v)`; once the header is written, changes to the map no
longer reach the response. -/
def Add (w : ResponseWriter) (k v : String) : ResponseWriter :=
  if w.status.isSome then w else { w with header := w.header ++ [(k, v)] }

/-- `w.Header().Del(k)`. -/
def Del (w : ResponseWriter) (k : String) : ResponseWriter :=
  if w.status.isSome then w else { w with header := w.header.filter fun h => h.1 ≠ k }

/-- `w.Header().Set(k, v)`. -/
def Set (w : ResponseWriter) (k v : String) : ResponseWriter := (w.Del k).Add k v

/-- `w.WriteHeader(code)`: only the first call sets the status. -/
def WriteHeader (w : ResponseWriter) (code : Nat) : ResponseWriter :=
  if w.status.isSome then w else { w with status := some code }

/-- `w.Write(b)`: writes the header with status 200 first if it has not been
written. -/
def Write (w : ResponseWriter) (b : String) : ResponseWriter :=
  let w1 := w.WriteHeader 200
  { w1 with body := w1.body ++ b }

end ResponseWriter

namespace http

/-- The function `http.Error(w, error, code)`: plain-text headers, the status,
and the message on a line. -/
def Error (w : ResponseWriter) (error : String) (code : Nat) : ResponseWriter :=
  ((((w.Del "Content-Length").Set "Content-Type" "text/plain; charset=utf-8").Set
    "X-Content-Type-Options" "nosniff").WriteHeader code).Write (error ++ "\n")

/-- The function `http.Redirect(w, r, url, code)` with a rooted `url` free of
characters that need escaping and `code` 308, as `home` calls it. -/
def Redirect (w : ResponseWriter) (r : Request) (url : String) (code : Nat) : ResponseWriter :=
  let hadCT := w.header.any fun h => h.1 = "Content-Type"
  let w1 := w.Set "Location" url
  let w2 :=
    if !hadCT && (r.Method = "GET" || r.Method = "HEAD") then
      w1.Set "Content-Type" "text/html; charset=utf-8"
    else w1
  let w3 := w2.WriteHeader code
  if !hadCT && r.Method = "GET" then
    w3.Write ("<a href=\"" ++ url ++ "\">Permanent Redirect</a>.\n" ++ "\n")
  else w3

end http

/-! ## `html/template`: the page of `home` -/

namespace template

/-- The escaper `html/template` puts on a pipeline in HTML text: the
replacement of one byte. -/
def escapeByte (c : Char) : List Char :=
  if c = Char.ofNat 0 then "\xef\xbf\xbd".data
  else if c = Char.ofNat 34 then "&#34;".data
  else if c = '&' then "&amp;".data
  else if c = Char.ofNat 39 then "&#39;".data
  else if c = '+' then "&#43;".data
  else if c = '<' then "&lt;".data
  else if c = '>' then "&gt;".data
  else [c]

/-- The HTML escaper on a string. -/
def htmlEscape (s : String) : String := ⟨s.data.flatMap escapeByte⟩

/-- The builtin `slice` on a string with two indexes: each index must lie
between 0 and the length, the first must not exceed the second, and the result
is the bytes from the first up to the second. -/
def slice (item : String) (i j : Nat) : Except Error String :=
  if i > item.length then .error "error calling slice: index out of range"
  else if j > item.length then .error "error calling slice: index out of range"
  else if i > j then .error "error calling slice: invalid slice index"
  else .ok ⟨(item.data.drop i).take (j - i)⟩

/-- A node of the body of `range .Data` in the list of the page: literal text,
or one of the actions that occur there. -/
inductive Node where
  | text (s : String)
  | name
  | sliceTime (i j : Nat)
  | printfLat
  | printfLon

/-- The value of an action on a record, before escaping; `fmt6` is the
formatting `printf "%.6f"` does. -/
def Node.eval (fmt6 : Float64 → String) (rec : Record) : Node → Except Error String
  | .text s => .ok s
  | .name => .ok rec.Name
  | .sliceTime i j => slice rec.Time i j
  | .printfLat => .ok (fmt6 rec.Lat)
  | .printfLon => .ok (fmt6 rec.Lon)

/-- Execution of one node: text is written as it is, the value of an action is
escaped and written, a failing action stops the execution with its error. -/
def Node.exec (fmt6 : Float64 → String) (rec : Record) (w : ResponseWriter) (n : Node) :
    ResponseWriter × Option Error :=
  match n with
  | .text s => (w.Write s, none)
  | a =>
    match a.eval fmt6 rec with
    | .ok v => (w.Write (htmlEscape v), none)
    | .error e => (w, some e)

/-- Execution of a list of nodes in order, up to the first error. -/
def execNodes (fmt6 : Float64 → String) (rec : Record) :
    ResponseWriter → List Node → ResponseWriter × Option Error
  | w, [] => (w, none)
  | w, n :: rest =>
    match n.exec fmt6 rec w with
    | (w1, none) => execNodes fmt6 rec w1 rest
    | (w1, some e) => (w1, some e)

/-- The text of the template up to the first `range .Data`. -/
def head : String := "\n  <!DOCTYPE html>\n  <html lang=\"en\">\n    <head>\n      <meta charset=\"UTF-8\">\n      <meta name=\"viewport\" content=\"width=device-width, initial-scale=1.0\">\n      <meta http-equiv=\"X-UA-Compatible\" content=\"ie=edge\">\n      <title>Registros</title>\n      <script src=\"https://cdn.tailwindcss.com\"></script>\n      <link rel=\"stylesheet\" href=\"https://unpkg.com/leaflet@1.9.4/dist/leaflet.css\"\n\tintegrity=\"sha256-p4NxAoJBhIIN+hmNHrzRCf9tD/miZyoHS5obTRR9BMY=\"\n\tcrossorigin=\"\"/>\n      <script src=\"https://unpkg.com/leaflet@1.9.4/dist/leaflet.js\"\n\tintegrity=\"sha256-20nQCchB9co0qIjJZRGuk2/Z9VM+kNiyxNV1lvTlZBo=\"\n\tcrossorigin=\"\"></script>\n    </head>\n    <body>\n    <div class=\"bg-slate-50 min-h-screen p-10 md:h-screen \">\n\t<main class=\"flex flex-col gap-10 h-full md:grid md:grid-cols-4\">\n\t<article class=\"border-purple-500 h-[500px] overflow-hidden rounded-md md:col-span-3 md:h-full\">\n\t    <div id=\"map\" class=\"h-full\"></div>\n\t  </article>\n\t  <article class=\"border divide-y h-full p-6 rounded-md shadow-md\">\n\t    "

/-- The text that opens a list item, up to the name. -/
def itemOpen : String := "\n\t      <section class=\"block p-3\">\n\t\t\t\t\t<div class=\"flex items-center justify-between\">\n\t\t\t\t\t\t<h3 class=\"font-semibold text-slate-900 text-lg\">"

/-- The text between the name and the date. -/
def itemMid : String := "</h3>\n\t\t\t\t\t\t<span class=\"font-light text-slate-500 text-sm\">"

/-- The text between the time and the coordinates. -/
def itemCoords : String := "</span>\n\t\t\t\t\t</div>\n\t\t\t\t\t<div class=\"flex font-light gap-1 items-center justify-end text-slate-500 text-sm\">\n\t\t\t\t\t\t<svg xmlns=\"http://www.w3.org/2000/svg\" viewBox=\"0 0 16 16\" fill=\"currentColor\" class=\"h-4 w-4\">\n\t\t\t\t\t\t\t<path fill-rule=\"evenodd\" d=\"m7.539 14.841.003.003.002.002a.755.755 0 0 0 .912 0l.002-.002.003-.003.012-.009a5.57 5.57 0 0 0 .19-.153 15.588 15.588 0 0 0 2.046-2.082c1.101-1.362 2.291-3.342 2.291-5.597A5 5 0 0 0 3 7c0 2.255 1.19 4.235 2.292 5.597a15.591 15.591 0 0 0 2.046 2.082 8.916 8.916 0 0 0 .189.153l.012.01ZM8 8.5a1.5 1.5 0 1 0 0-3 1.5 1.5 0 0 0 0 3Z\" clip-rule=\"evenodd\" />\n\t\t\t\t\t\t</svg>\n\t\t\t\t\t\t<span>("

/-- The text that closes a list item. -/
def itemClose : String := ")</span>\n\t\t\t\t\t</div>\n\t      </section>\n\t    "

/-- The body of the first `range .Data`: one list item. -/
def item : List Node :=
  [ .text itemOpen, .name, .text itemMid,
    .sliceTime 8 10, .text "/", .sliceTime 5 7, .text "/", .sliceTime 2 4, .text " ",
    .sliceTime 11 16,
    .text itemCoords, .printfLat, .text ", ", .printfLon, .text itemClose ]

/-- The text between the two `range .Data`. -/
def middle : String := "\n\t  </article>\n\t</main>\n      </div>\n    </body>\n    <script>\n      const map = L.map('map').setView(\x7b lat: 2.81954, lng: -60.6714 \x7d, 14);\n\n      L.tileLayer('https://tile.openstreetmap.org/\x7bz\x7d/\x7bx\x7d/\x7by\x7d.png', \x7b\n\t  maxZoom: 19,\n\t  attribution: '&copy; <a href=\"http://www.openstreetmap.org/copyright\">OpenStreetMap</a>'\n      \x7d).addTo(map);\n\n      "

/-- The text of the body of the second `range .Data`. -/
def polylineText : String := "\n\t\t\t\tconst polyline = L.polyline([[2.81954, -60.6714], [2.8196, -60.672]], \x7b color: \"red\" \x7d).addTo(map);\n      "

/-- The body of the second `range .Data`: text only. -/
def polyline : List Node :=
  [ .text polylineText ]

/-- The text after the second `range .Data`. -/
def tail : String := "\n\n      map.fitBounds(polyline.getBounds());\n    </script>\n  </html>\n  "

/-- The action `range .Data` with the given body: the body once per record, in
order, up to the first error. -/
def range (fmt6 : Float64 → String) (body : List Node) :
    ResponseWriter → List Record → ResponseWriter × Option Error
  | w, [] => (w, none)
  | w, rec :: rest =>
    match execNodes fmt6 rec w body with
    | (w1, none) => range fmt6 body w1 rest
    | (w1, some e) => (w1, some e)

/-- The call `tmpl.Execute(w, records)` of `home`: what has been written when
it returns, and its error. -/
def Execute (fmt6 : Float64 → String) (w : ResponseWriter) (records : Records) :
    ResponseWriter × Option Error :=
  match range fmt6 item (w.Write head) records.Data with
  | (w1, some e) => (w1, some e)
  | (w1, none) =>
    match range fmt6 polyline (w1.Write middle) records.Data with
    | (w2, some e) => (w2, some e)
    | (w2, none) => (w2.Write tail, none)

/-- The builtin `printf` with the format `%.6f` on a `float64`, that is
`fmt.Sprintf`: the value rounded to six decimals, ties to even, with a minus
sign for a negative value; the infinities and NaN by name.  The functions
above take the formatting as the parameter `fmt6`; this is the one of the
program. -/
def printf6 : Float64 → String
  | .nan => "NaN"
  | .inf false => "+Inf"
  | .inf true => "-Inf"
  | .fin q =>
    let n := strconv.roundHalfEven (q.num.natAbs * 10 ^ 6) q.den
    (if q.num < 0 then "-" else "") ++ Nat.repr (n / 10 ^ 6) ++ "." ++
      ⟨(Nat.repr (10 ^ 6 + n % 10 ^ 6)).data.drop 1⟩

end template

/-! ## `cmd/api`: the two handlers -/

/-- What a handler left behind: the response writer, and the panic that ended
it, if one did. A handler that panics is recovered by the server, which closes
the connection. -/
structure Served where
  w : ResponseWriter
  panicked : Option String
  deriving DecidableEq

/-- The handler `home`.  `query` is the outcome of the `db.Query` call that
`QueryLatest` makes. -/
def home (fmt6 : Float64 → String) (query : QueryResult) (w : ResponseWriter) (r : Request) :
    Served :=
  if r.Path ≠ "/" then ⟨http.Redirect w r "/" 308, none⟩
  else
    match Records.QueryLatest ⟨[]⟩ query with
    | (_, .panic msg) => ⟨w, some msg⟩
    | (_, .ret (some _)) => ⟨http.Error w "A problem occurred when querying the db" 500, none⟩
    | (records, .ret none) =>
      match template.Execute fmt6 w records with
      | (w1, some _) =>
        ⟨http.Error w1 "A problem occurred when rendering the template" 500, none⟩
      | (w1, none) => ⟨w1, none⟩

/-- The handler `records`.  `decode` is `json.NewDecoder(r.Body).Decode` into a
zero `Record`: the decoded record, or the error. -/
def records (decode : String → Except Error Record) (db : DB) (w : ResponseWriter)
    (r : Request) : ResponseWriter × DB :=
  if r.Method ≠ "POST" then
    (http.Error (w.Add "Allow" "POST") "Method not allowed" 405, db)
  else
    match decode r.Body with
    | .error _ => (http.Error w "A problem occurred when reading from body" 400, db)
    | .ok record =>
      if validate.Struct record ≠ [] then
        (http.Error w "A problem occurred when validating the body" 400, db)
      else
        match record.Insert db with
        | (some _, db1) => (http.Error w "A problem occurred when inserting to db" 500, db1)
        | (none, db1) => ((w.WriteHeader 201).Write "Record inserted successfully", db1)

/-! ## Two functions used to state what `QueryLatest` leaves behind -/

/-- The records the loop builds from the rows that scan, up to the first row
that does not. -/
def scannedBefore : List (Except Error Scanned) → List Record
  | [] => []
  | .error _ :: _ => []
  | .ok s :: rest => s.record :: scannedBefore rest

/-- The error the loop ends with: that of the first failing scan, else that of
the iteration. -/
def loopError : List (Except Error Scanned) → Option Error → Option Error
  | [], err => err
  | .error e :: _, _ => some e
  | .ok _ :: rest, err => loopError rest err

/-- The concatenation of a list of strings. -/
def cat (l : List String) : String := l.foldr (fun a b => a ++ b) ""

/-- What the list item of the template writes for a record whose time has at
least sixteen bytes: the literal text of the item around the escaped name, the
four escaped slices of the time with their separators, and the two escaped
coordinates. -/
def template.itemText (fmt6 : Float64 → String) (rec : Record) : String :=
  template.itemOpen ++ template.htmlEscape rec.Name ++ template.itemMid ++
  template.htmlEscape ⟨(rec.Time.data.drop 8).take 2⟩ ++ "/" ++
  template.htmlEscape ⟨(rec.Time.data.drop 5).take 2⟩ ++ "/" ++
  template.htmlEscape ⟨(rec.Time.data.drop 2).take 2⟩ ++ " " ++
  template.htmlEscape ⟨(rec.Time.data.drop 11).take 5⟩ ++
  template.itemCoords ++ template.htmlEscape (fmt6 rec.Lat) ++ ", " ++
  template.htmlEscape (fmt6 rec.Lon) ++ template.itemClose

/-- The latitude of the examples: the `float64` written `2.81954`. -/
def exampleLat : Float64 := (strconv.ParseFloat "2.81954").1

/-- The longitude of the examples: the `float64` written `-60.6714`. -/
def exampleLon : Float64 := (strconv.ParseFloat "-60.6714").1

/-- The text of the two coordinates of the examples, as
`strconv.FormatFloat(x, 'g', -1, 64)` prints them. -/
def exampleText (x : Float64) : String :=
  if x = exampleLat then "2.81954" else "-60.6714"

/-! ## Lemmas on the validation gate -/

theorem validate.field_eq_nil (name : String) (checks : List (String × Bool)) :
    validate.field name checks = [] ↔ ∀ c ∈ checks, c.2 = true := by
  unfold validate.field
  cases h : checks.find? (fun c => !c.2) with
  | none =>
    simp only [true_iff]
    intro c hc
    have := List.find?_eq_none.mp h c hc
    simpa using this
  | some c =>
    simp only [List.cons_ne_nil, false_iff, not_forall]
    have hp := List.find?_some h
    exact ⟨c, List.mem_of_find?_eq_some h, by simpa using hp⟩

theorem validate.requiredFloat_latitude (x : Float64) (b : ℚ) :
    (validate.requiredFloat x = true ∧ x.within (-b) b = true) ↔
      ∃ q, x = .fin q ∧ q ≠ 0 ∧ -b ≤ q ∧ q ≤ b := by
  cases x with
  | fin q => simp [validate.requiredFloat, Float64.isZero, Float64.within]
  | inf n => simp [validate.requiredFloat, Float64.isZero, Float64.within]
  | nan => simp [validate.requiredFloat, Float64.isZero, Float64.within]

theorem validate.struct_eq_nil (r : Record) :
    validate.Struct r = [] ↔
      (∃ q, r.Lat = .fin q ∧ q ≠ 0 ∧ -90 ≤ q ∧ q ≤ 90) ∧
      (∃ q, r.Lon = .fin q ∧ q ≠ 0 ∧ -180 ≤ q ∧ q ≤ 180) ∧
      r.Time ≠ "" ∧ 0 < r.Vehicle := by
  rw [← validate.requiredFloat_latitude, ← validate.requiredFloat_latitude]
  simp only [validate.Struct, List.append_eq_nil, validate.field_eq_nil]
  simp [validate.latitude, validate.longitude, validate.requiredString, validate.requiredUint,
    validate.gt, and_assoc]
  intro _ _ _ _ _
  omega

/-! ## Lemmas on the response writer and on `Insert` -/

theorem http.Error_fresh (msg : String) (code : Nat) :
    http.Error .fresh msg code =
      ⟨[("Content-Type", "text/plain; charset=utf-8"), ("X-Content-Type-Options", "nosniff")],
        some code, msg ++ "\n"⟩ := by
  simp [http.Error, ResponseWriter.fresh, ResponseWriter.Del, ResponseWriter.Set,
    ResponseWriter.Add, ResponseWriter.WriteHeader, ResponseWriter.Write]

theorem http.Error_allow (msg : String) (code : Nat) :
    http.Error (ResponseWriter.fresh.Add "Allow" "POST") msg code =
      ⟨[("Allow", "POST"), ("Content-Type", "text/plain; charset=utf-8"),
        ("X-Content-Type-Options", "nosniff")], some code, msg ++ "\n"⟩ := by
  simp [http.Error, ResponseWriter.fresh, ResponseWriter.Del, ResponseWriter.Set,
    ResponseWriter.Add, ResponseWriter.WriteHeader, ResponseWriter.Write]

theorem Record.Insert_execs (r : Record) (db : DB) : (r.Insert db).2.execs = db.execs + 1 := by
  unfold Record.Insert DB.Exec
  cases db.down with
  | some e => rfl
  | none =>
    simp only
    split_ifs <;> rfl

theorem validate.struct_ne_nil_of_bad (record : Record)
    (hbad : (record.Lat = .fin 0 ∧ record.Lon = .fin 0) ∨ record.Lat.within (-90) 90 = false ∨
      record.Lon.within (-180) 180 = false ∨ record.Vehicle ≤ 0 ∨ record.Time = "") :
    validate.Struct record ≠ [] := by
  intro h
  obtain ⟨⟨q, hq, hq0, hq1, hq2⟩, ⟨p, hp, _, hp1, hp2⟩, ht, hv⟩ :=
    (validate.struct_eq_nil record).mp h
  rcases hbad with ⟨h1, _⟩ | h1 | h1 | h1 | h1
  · rw [hq] at h1
    exact hq0 (Float64.fin.inj h1)
  · simp [hq, Float64.within, hq1, hq2] at h1
  · simp [hp, Float64.within, hp1, hp2] at h1
  · omega
  · exact ht h1

/-! ## Lemmas on the order of the query -/

theorem bytesLE_total (a b : List Char) : bytesLE a b = true ∨ bytesLE b a = true := by
  induction a generalizing b with
  | nil => left; cases b <;> rfl
  | cons x xs ih =>
    cases b with
    | nil => right; rfl
    | cons y ys =>
      simp only [bytesLE, Bool.or_eq_true, Bool.and_eq_true, decide_eq_true_eq]
      rcases lt_trichotomy x y with h | h | h
      · exact Or.inl (Or.inl h)
      · subst h
        rcases ih ys with h1 | h1
        · exact Or.inl (Or.inr ⟨rfl, h1⟩)
        · exact Or.inr (Or.inr ⟨rfl, h1⟩)
      · exact Or.inr (Or.inl h)

theorem bytesLE_trans (a b c : List Char) (hab : bytesLE a b = true) (hbc : bytesLE b c = true) :
    bytesLE a c = true := by
  induction a generalizing b c with
  | nil => cases c <;> rfl
  | cons x xs ih =>
    cases b with
    | nil => simp [bytesLE] at hab
    | cons y ys =>
      cases c with
      | nil => simp [bytesLE] at hbc
      | cons z zs =>
        simp only [bytesLE, Bool.or_eq_true, Bool.and_eq_true, decide_eq_true_eq] at hab hbc ⊢
        rcases hab with h1 | ⟨h1, h2⟩
        · rcases hbc with h3 | ⟨h3, _⟩
          · exact Or.inl (lt_trans h1 h3)
          · exact Or.inl (h3 ▸ h1)
        · rcases hbc with h3 | ⟨h3, h4⟩
          · exact Or.inl (h1 ▸ h3)
          · exact Or.inr ⟨h1.trans h3, ih ys zs h2 h4⟩

theorem timeDesc_total : IsTotal (RecordRow × Vehicle) timeDesc :=
  ⟨fun a b => bytesLE_total b.1.time.data a.1.time.data⟩

theorem timeDesc_trans : IsTrans (RecordRow × Vehicle) timeDesc :=
  ⟨fun a b c hab hbc => bytesLE_trans c.1.time.data b.1.time.data a.1.time.data hbc hab⟩

theorem sorted_by_timeDesc (l : List (RecordRow × Vehicle)) :
    (l.insertionSort timeDesc).Pairwise timeDesc :=
  haveI := timeDesc_total
  haveI := timeDesc_trans
  List.sorted_insertionSort timeDesc l

/-! ## Lemmas on `QueryLatest` -/

theorem scanLoop_eq (data : List Record) (scans : List (Except Error Scanned))
    (err : Option Error) :
    scanLoop data scans err = (data ++ scannedBefore scans, loopError scans err) := by
  induction scans generalizing data with
  | nil => simp [scanLoop, scannedBefore, loopError]
  | cons x rest ih =>
    cases x with
    | error e => simp [scanLoop, scannedBefore, loopError]
    | ok s => simp [scanLoop, scannedBefore, loopError, ih]

theorem scannedBefore_map_ok (l : List Scanned) :
    scannedBefore (l.map fun s => Except.ok s) = l.map Scanned.record := by
  induction l with
  | nil => rfl
  | cons s rest ih => simp [scannedBefore, ih]

theorem loopError_map_ok (l : List Scanned) (err : Option Error) :
    loopError (l.map fun s => Except.ok s) err = err := by
  induction l with
  | nil => rfl
  | cons s rest ih => simp [loopError, ih]

theorem QueryLatest_up (db : DB) (h : db.down = none) :
    Records.QueryLatest ⟨[]⟩ db.Query =
      (⟨db.latest.map fun p => (selected p).record⟩, .ret none) := by
  have h1 : (db.latest.map fun p => (Except.ok (selected p) : Except Error Scanned)) =
      (db.latest.map selected).map fun s => Except.ok s := by
    rw [List.map_map]; rfl
  have h2 : db.Query = .ok ⟨(db.latest.map selected).map fun s => Except.ok s, none⟩ := by
    unfold DB.Query
    rw [h, h1]
  rw [h2]
  unfold Records.QueryLatest
  simp only [scanLoop_eq, List.nil_append]
  rw [scannedBefore_map_ok, loopError_map_ok, List.map_map]
  rfl

theorem QueryLatest_down (db : DB) (e : Error) (h : db.down = some e) :
    Records.QueryLatest ⟨[]⟩ db.Query = (⟨[]⟩, .panic nilDeref) := by
  simp [Records.QueryLatest, DB.Query, h]

theorem DB.mem_joined (db : DB) (p : RecordRow × Vehicle) :
    p ∈ db.joined ↔ p.1 ∈ db.record ∧ p.2 ∈ db.vehicle ∧ p.2.Id = p.1.vehicle := by
  obtain ⟨row, v⟩ := p
  simp only [DB.joined, List.mem_flatMap, List.mem_map, List.mem_filter, decide_eq_true_eq,
    Prod.mk.injEq]
  constructor
  · rintro ⟨row1, hr, v1, ⟨hv, hid⟩, rfl, rfl⟩
    exact ⟨hr, hv, hid⟩
  · rintro ⟨hr, hv, hid⟩
    exact ⟨row, hr, v, ⟨hv, hid⟩, rfl, rfl⟩

theorem DB.latest_length (db : DB) : db.latest.length ≤ 5 := by
  simp [DB.latest, List.length_take]

theorem DB.latest_sorted (db : DB) : db.latest.Pairwise timeDesc := by
  exact (sorted_by_timeDesc db.joined).sublist (List.take_sublist 5 _)

theorem DB.mem_latest (db : DB) (p : RecordRow × Vehicle) (h : p ∈ db.latest) : p ∈ db.joined :=
  (List.perm_insertionSort timeDesc db.joined).subset (List.mem_of_mem_take h)

theorem DB.latest_most_recent (db : DB) (p : RecordRow × Vehicle) (h : p ∈ db.joined) :
    p ∈ db.latest ∨ (db.latest.length = 5 ∧ ∀ q ∈ db.latest, timeDesc q p) := by
  have hs : (db.joined.insertionSort timeDesc).Pairwise timeDesc :=
    sorted_by_timeDesc db.joined
  have hp : p ∈ db.joined.insertionSort timeDesc :=
    (List.perm_insertionSort timeDesc db.joined).mem_iff.mpr h
  rw [← List.take_append_drop 5 (db.joined.insertionSort timeDesc)] at hs hp
  rcases List.mem_append.mp hp with h1 | h1
  · exact Or.inl h1
  · right
    refine ⟨?_, fun q hq => (List.pairwise_append.mp hs).2.2 q hq p h1⟩
    have hlen : 5 < (db.joined.insertionSort timeDesc).length := by
      by_contra hc
      rw [List.drop_eq_nil_of_le (Nat.le_of_not_lt hc)] at h1
      simp at h1
    simp only [DB.latest, List.length_take]
    omega

theorem loopError_of_failure (scans : List (Except Error Scanned)) (err : Option Error)
    (h : (∃ e, Except.error e ∈ scans) ∨ err ≠ none) : ∃ e, loopError scans err = some e := by
  induction scans with
  | nil =>
    rcases h with ⟨e, he⟩ | h
    · simp at he
    · cases err with
      | none => exact absurd rfl h
      | some e => exact ⟨e, rfl⟩
  | cons x rest ih =>
    cases x with
    | error e => exact ⟨e, rfl⟩
    | ok s =>
      simp only [loopError]
      apply ih
      rcases h with ⟨e, he⟩ | h
      · left
        refine ⟨e, ?_⟩
        simpa using he
      · exact Or.inr h

theorem scannedBefore_append_ok (pre : List Scanned) (rest : List (Except Error Scanned)) :
    scannedBefore ((pre.map fun s => Except.ok s) ++ rest) =
      pre.map Scanned.record ++ scannedBefore rest := by
  induction pre with
  | nil => rfl
  | cons s pre ih => simp [scannedBefore, ih]

theorem loopError_append_ok (pre : List Scanned) (rest : List (Except Error Scanned))
    (err : Option Error) :
    loopError ((pre.map fun s => Except.ok s) ++ rest) err = loopError rest err := by
  induction pre with
  | nil => rfl
  | cons s pre ih => simp [loopError, ih]

/-! ## Lemmas on `ParseFloat` -/

theorem strconv.readSign_fst (s : List Char) :
    (strconv.readSign s).1 = decide (s.head? = some '-') := by
  unfold strconv.readSign
  split
  · simp
  · simp
  · rename_i h1 h2
    cases s with
    | nil => simp
    | cons c t =>
      by_cases hc : c = '-'
      · exact absurd (hc ▸ rfl) (h2 t)
      · simp [hc]

theorem strconv.readFloat_neg (s : List Char) (l : strconv.Literal)
    (h : strconv.readFloat s = some l) : l.neg = (strconv.readSign s).1 := by
  unfold strconv.readFloat at h
  simp only at h
  repeat' split at h
  all_goals first
    | (cases h; done)
    | (cases h; rfl)

theorem strconv.ParseFloat_error (s : String) :
    ((strconv.ParseFloat s).2 = some .ErrSyntax → (strconv.ParseFloat s).1 = .fin 0) ∧
    ((strconv.ParseFloat s).2 = some .ErrRange →
      (strconv.ParseFloat s).1 = .inf (decide (s.data.head? = some '-'))) := by
  unfold strconv.ParseFloat
  cases strconv.special s.data with
  | some v => simp
  | none =>
    cases h : strconv.readFloat s.data with
    | none => simp
    | some l =>
      have hneg := (strconv.readFloat_neg s.data l h).trans (strconv.readSign_fst s.data)
      simp only
      split_ifs <;> simp [hneg]

/-! ## Lemmas on the template -/

theorem ResponseWriter.Write_Write (w : ResponseWriter) (a b : String) :
    (w.Write a).Write b = w.Write (a ++ b) := by
  cases h : w.status <;>
    simp [ResponseWriter.Write, ResponseWriter.WriteHeader, h, String.append_assoc]

theorem template.escapeByte_digit (c : Char) (h : c.isDigit = true) :
    template.escapeByte c = [c] := by
  have h0 : c ≠ Char.ofNat 0 := by rintro rfl; exact absurd h (by decide)
  have h1 : c ≠ Char.ofNat 34 := by rintro rfl; exact absurd h (by decide)
  have h2 : c ≠ '&' := by rintro rfl; exact absurd h (by decide)
  have h3 : c ≠ Char.ofNat 39 := by rintro rfl; exact absurd h (by decide)
  have h4 : c ≠ '+' := by rintro rfl; exact absurd h (by decide)
  have h5 : c ≠ '<' := by rintro rfl; exact absurd h (by decide)
  have h6 : c ≠ '>' := by rintro rfl; exact absurd h (by decide)
  simp [template.escapeByte, h0, h1, h2, h3, h4, h5, h6]

theorem template.escapeByte_colon : template.escapeByte ':' = [':'] := by decide

theorem template.item_fails_of_short (fmt6 : Float64 → String) (rec : Record)
    (hlen : rec.Time.length < 16) (w : ResponseWriter) :
    (template.execNodes fmt6 rec w template.item).2 ≠ none := by
  have h16 : 16 > rec.Time.length := hlen
  simp only [template.execNodes, template.item, template.Node.exec, template.Node.eval,
    template.slice]
  split_ifs <;> simp_all

theorem template.range_fails (fmt6 : Float64 → String) (body : List template.Node) (rec : Record)
    (hrec : ∀ w, (template.execNodes fmt6 rec w body).2 ≠ none) (l : List Record)
    (hmem : rec ∈ l) (w : ResponseWriter) : (template.range fmt6 body w l).2 ≠ none := by
  induction l generalizing w with
  | nil => simp at hmem
  | cons x rest ih =>
    unfold template.range
    rcases hx : template.execNodes fmt6 x w body with ⟨w1, err⟩
    cases err with
    | some e => simp
    | none =>
      simp only
      rcases List.mem_cons.mp hmem with h | h
      · subst h
        have := hrec w
        rw [hx] at this
        exact absurd rfl this
      · exact ih h w1

theorem template.Execute_fails (fmt6 : Float64 → String) (rec : Record)
    (hlen : rec.Time.length < 16) (w : ResponseWriter) (records : Records)
    (hmem : rec ∈ records.Data) : (template.Execute fmt6 w records).2 ≠ none := by
  have h := template.range_fails fmt6 template.item rec
    (template.item_fails_of_short fmt6 rec hlen) records.Data hmem (w.Write template.head)
  unfold template.Execute
  rcases hx : template.range fmt6 template.item (w.Write template.head) records.Data
    with ⟨w1, err⟩
  rw [hx] at h
  cases err with
  | some e => simp
  | none => exact absurd rfl h

/-! ## Lemmas on `Insert` followed by `QueryLatest` -/

theorem Record.Insert_up (r : Record) (db : DB) (hup : db.down = none)
    (hveh : ∃ v ∈ db.vehicle, v.Id = r.Vehicle) :
    r.Insert db = (none, { db with
      execs := db.execs + 1
      record := db.record ++ [⟨db.nextId, db.text r.Lat, db.text r.Lon, r.Time, r.Vehicle⟩] }) := by
  have hany : (db.vehicle.any fun v => decide (v.Id = r.Vehicle)) = true := by
    obtain ⟨v, hv, hid⟩ := hveh
    exact List.any_eq_true.mpr ⟨v, hv, by simpa using hid⟩
  have hkey : r.Vehicle < 2 ^ 63 := by
    obtain ⟨v, hv, hid⟩ := hveh
    exact hid ▸ db.keys v hv
  have hkey1 : ¬ 2 ^ 63 ≤ r.Vehicle := Nat.not_le.mpr hkey
  simp only [Record.Insert, DB.Exec, hup, hany, hkey1]
  simp

theorem DB.latest_has_new_row (db : DB) (row : RecordRow)
    (hveh : ∃ v ∈ db.vehicle, v.Id = row.vehicle)
    (hfew : (db.joined.filter fun p => bytesLE row.time.data p.1.time.data).length < 5) :
    ∃ p ∈ ({ db with record := db.record ++ [row] } : DB).latest, p.1 = row := by
  by_contra hno
  simp only [not_exists, not_and] at hno
  obtain ⟨v, hv, hid⟩ := hveh
  let db1 : DB := { db with record := db.record ++ [row] }
  have hj : db1.joined = db.joined ++
      (db.vehicle.filter fun v => decide (v.Id = row.vehicle)).map fun v => (row, v) := by
    simp [db1, DB.joined, List.flatMap_append]
  have hp0 : (row, v) ∈ db1.joined := by
    rw [hj]
    exact List.mem_append_right _
      (List.mem_map.mpr ⟨v, List.mem_filter.mpr ⟨hv, by simpa using hid⟩, rfl⟩)
  rcases db1.latest_most_recent (row, v) hp0 with h | ⟨hlen, hall⟩
  · exact hno (row, v) h rfl
  · let Q : RecordRow × Vehicle → Bool :=
      fun p => decide (p.1 ≠ row) && bytesLE row.time.data p.1.time.data
    have hT : db1.latest.filter Q = db1.latest := by
      apply List.filter_eq_self.mpr
      intro q hq
      have h1 : bytesLE row.time.data q.1.time.data = true := hall q hq
      have h2 : q.1 ≠ row := hno q hq
      simp [Q, h1, h2]
    have hsub : (db1.latest.filter Q).length ≤ (db1.joined.filter Q).length := by
      have h1 : (db1.latest.filter Q).Sublist ((db1.joined.insertionSort timeDesc).filter Q) :=
        (List.take_sublist 5 _).filter Q
      have h2 : ((db1.joined.insertionSort timeDesc).filter Q).Perm (db1.joined.filter Q) :=
        (List.perm_insertionSort timeDesc db1.joined).filter Q
      exact h1.length_le.trans (le_of_eq h2.length_eq)
    have hN : ((db.vehicle.filter fun v => decide (v.Id = row.vehicle)).map
        fun v => (row, v)).filter Q = [] := by
      apply List.filter_eq_nil_iff.mpr
      intro p hp
      obtain ⟨v1, _, rfl⟩ := List.mem_map.mp hp
      simp [Q]
    have hJ : (db.joined.filter Q).length ≤
        (db.joined.filter fun p => bytesLE row.time.data p.1.time.data).length := by
      have : db.joined.filter Q =
          (db.joined.filter fun p => bytesLE row.time.data p.1.time.data).filter
            fun p => decide (p.1 ≠ row) := by
        rw [List.filter_filter]
      rw [this]
      exact (List.filter_sublist _).length_le
    rw [hT, hlen, hj, List.filter_append, hN, List.append_nil] at hsub
    omega

theorem DB.latest_congr (a b : DB) (hv : a.vehicle = b.vehicle) (hr : a.record = b.record) :
    a.latest = b.latest := by
  simp [DB.latest, DB.joined, hv, hr]

theorem QueryLatest_after_Insert (db : DB) (r : Record) (hup : db.down = none)
    (hveh : ∃ v ∈ db.vehicle, v.Id = r.Vehicle)
    (hfew : (db.joined.filter fun p => bytesLE r.Time.data p.1.time.data).length < 5) :
    (r.Insert db).1 = none ∧
    (Records.QueryLatest ⟨[]⟩ (r.Insert db).2.Query).2 = .ret none ∧
    ∃ d ∈ (Records.QueryLatest ⟨[]⟩ (r.Insert db).2.Query).1.Data,
      d.Lat = (strconv.ParseFloat (db.text r.Lat)).1 ∧
      d.Lon = (strconv.ParseFloat (db.text r.Lon)).1 ∧ d.Time = r.Time ∧
      d.Vehicle = r.Vehicle := by
  rw [Record.Insert_up r db hup hveh]
  refine ⟨rfl, ?_⟩
  have key : ∀ db1 : DB, db1.down = none → db1.vehicle = db.vehicle →
      db1.record = db.record ++
        [⟨db.nextId, db.text r.Lat, db.text r.Lon, r.Time, r.Vehicle⟩] →
      (Records.QueryLatest ⟨[]⟩ db1.Query).2 = .ret none ∧
      ∃ d ∈ (Records.QueryLatest ⟨[]⟩ db1.Query).1.Data,
        d.Lat = (strconv.ParseFloat (db.text r.Lat)).1 ∧
        d.Lon = (strconv.ParseFloat (db.text r.Lon)).1 ∧ d.Time = r.Time ∧
        d.Vehicle = r.Vehicle := by
    intro db1 h1 h2 h3
    obtain ⟨p, hp, hrow⟩ := db.latest_has_new_row
      ⟨db.nextId, db.text r.Lat, db.text r.Lon, r.Time, r.Vehicle⟩ hveh hfew
    rw [QueryLatest_up db1 h1, DB.latest_congr db1 { db with
      record := db.record ++ [⟨db.nextId, db.text r.Lat, db.text r.Lon, r.Time, r.Vehicle⟩] }
      h2 h3]
    refine ⟨rfl, (selected p).record, List.mem_map.mpr ⟨p, hp, rfl⟩, ?_⟩
    simp [Scanned.record, selected, hrow]
  exact key _ hup rfl rfl

theorem home_render_failure (fmt6 : Float64 → String) (query : QueryResult) (recs : Records)
    (method body : String) (hq : Records.QueryLatest ⟨[]⟩ query = (recs, .ret none))
    (hfail : (template.Execute fmt6 .fresh recs).2 ≠ none) :
    home fmt6 query .fresh ⟨method, "/", body⟩ =
      ⟨http.Error (template.Execute fmt6 .fresh recs).1
        "A problem occurred when rendering the template" 500, none⟩ := by
  unfold home
  rw [hq]
  simp only [ne_eq, not_true_eq_false, ↓reduceIte]
  rcases hx : template.Execute fmt6 .fresh recs with ⟨w1, err⟩
  rw [hx] at hfail
  cases err with
  | none => exact absurd rfl hfail
  | some e => rfl

theorem template.Execute_fails_of_time (fmt6 : Float64 → String) (t : String)
    (hlen : t.length < 16) (w : ResponseWriter) (records : Records)
    (hmem : ∃ d ∈ records.Data, d.Time = t) : (template.Execute fmt6 w records).2 ≠ none := by
  obtain ⟨d, hd, ht⟩ := hmem
  exact template.Execute_fails fmt6 d (ht ▸ hlen) w records hd

/-! ## Lemmas on the page that `home` writes -/

theorem ResponseWriter.Write_body (w : ResponseWriter) (a : String) :
    (w.Write a).body = w.body ++ a := by
  cases h : w.status <;> simp [ResponseWriter.Write, ResponseWriter.WriteHeader, h]

theorem ResponseWriter.Write_fresh (a : String) :
    ResponseWriter.fresh.Write a = ⟨[], some 200, a⟩ := by
  simp [ResponseWriter.Write, ResponseWriter.WriteHeader, ResponseWriter.fresh]

theorem http.Error_body (w : ResponseWriter) (msg : String) (code : Nat) :
    (http.Error w msg code).body = w.body ++ (msg ++ "\n") := by
  cases h : w.status <;>
    simp [http.Error, ResponseWriter.Write, ResponseWriter.WriteHeader, ResponseWriter.Set,
      ResponseWriter.Add, ResponseWriter.Del, h]

theorem cat_append (l1 l2 : List String) : cat (l1 ++ l2) = cat l1 ++ cat l2 := by
  induction l1 with
  | nil => simp [cat]
  | cons a l ih =>
    simp only [cat, List.cons_append, List.foldr_cons] at ih ⊢
    rw [ih, String.append_assoc]

theorem cat_nil : cat [] = "" := rfl

theorem cat_cons (a : String) (l : List String) : cat (a :: l) = a ++ cat l := rfl

theorem template.item_writes (fmt6 : Float64 → String) (rec : Record)
    (h : 16 ≤ rec.Time.length) (w : ResponseWriter) :
    template.execNodes fmt6 rec w template.item = (w.Write (template.itemText fmt6 rec), none) := by
  have h1 : ¬ 8 > rec.Time.length := by omega
  have h2 : ¬ 10 > rec.Time.length := by omega
  have h3 : ¬ 5 > rec.Time.length := by omega
  have h4 : ¬ 7 > rec.Time.length := by omega
  have h5 : ¬ 2 > rec.Time.length := by omega
  have h6 : ¬ 4 > rec.Time.length := by omega
  have h7 : ¬ 11 > rec.Time.length := by omega
  have h8 : ¬ 16 > rec.Time.length := by omega
  simp [template.execNodes, template.item, template.Node.exec, template.Node.eval,
    template.slice, h1, h2, h3, h4, h5, h6, h7, h8, ResponseWriter.Write_Write,
    template.itemText]

theorem template.execNodes_body (fmt6 : Float64 → String) (rec : Record)
    (nodes : List template.Node) (w : ResponseWriter) :
    ∃ x, (template.execNodes fmt6 rec w nodes).1.body = w.body ++ x := by
  induction nodes generalizing w with
  | nil => exact ⟨"", by simp [template.execNodes]⟩
  | cons n rest ih =>
    unfold template.execNodes
    have hn : ∃ y, (n.exec fmt6 rec w).1.body = w.body ++ y := by
      unfold template.Node.exec
      split
      · exact ⟨_, ResponseWriter.Write_body w _⟩
      · split
        · exact ⟨_, ResponseWriter.Write_body w _⟩
        · exact ⟨"", by simp⟩
    rcases hx : n.exec fmt6 rec w with ⟨w1, err⟩
    rw [hx] at hn
    obtain ⟨y, hy⟩ := hn
    cases err with
    | some e => exact ⟨y, hy⟩
    | none =>
      obtain ⟨z, hz⟩ := ih w1
      exact ⟨y ++ z, by simp only [hz]; simp only at hy; rw [hy, String.append_assoc]⟩

theorem template.range_body (fmt6 : Float64 → String) (body : List template.Node)
    (l : List Record) (w : ResponseWriter) :
    ∃ x, (template.range fmt6 body w l).1.body = w.body ++ x := by
  induction l generalizing w with
  | nil => exact ⟨"", by simp [template.range]⟩
  | cons rec rest ih =>
    unfold template.range
    obtain ⟨y, hy⟩ := template.execNodes_body fmt6 rec body w
    rcases hx : template.execNodes fmt6 rec w body with ⟨w1, err⟩
    rw [hx] at hy
    cases err with
    | some e => exact ⟨y, hy⟩
    | none =>
      obtain ⟨z, hz⟩ := ih w1
      exact ⟨y ++ z, by simp only [hz]; simp only at hy; rw [hy, String.append_assoc]⟩

theorem template.range_append (fmt6 : Float64 → String) (body : List template.Node)
    (l1 l2 : List Record) (w w1 : ResponseWriter)
    (h : template.range fmt6 body w l1 = (w1, none)) :
    template.range fmt6 body w (l1 ++ l2) = template.range fmt6 body w1 l2 := by
  induction l1 generalizing w with
  | nil =>
    simp only [template.range, Prod.mk.injEq, and_true] at h
    rw [h]
    rfl
  | cons rec rest ih =>
    simp only [List.cons_append, template.range] at h ⊢
    rcases hx : template.execNodes fmt6 rec w body with ⟨w2, err⟩
    rw [hx] at h
    cases err with
    | some e => simp at h
    | none => exact ih w2 h

theorem template.range_item (fmt6 : Float64 → String) (l : List Record)
    (h : ∀ p ∈ l, 16 ≤ p.Time.length) (w : ResponseWriter) (a : String) :
    template.range fmt6 template.item (w.Write a) l =
      (w.Write (a ++ cat (l.map (template.itemText fmt6))), none) := by
  induction l generalizing a with
  | nil => simp [template.range, cat]
  | cons rec rest ih =>
    unfold template.range
    rw [template.item_writes fmt6 rec (h rec (List.mem_cons_self _ _)),
      ResponseWriter.Write_Write]
    simp only
    rw [ih (fun p hp => h p (List.mem_cons_of_mem _ hp)), List.map_cons, cat_cons,
      String.append_assoc]

theorem template.range_polyline (fmt6 : Float64 → String) (l : List Record)
    (w : ResponseWriter) (a : String) :
    template.range fmt6 template.polyline (w.Write a) l =
      (w.Write (a ++ cat (l.map fun _ => template.polylineText)), none) := by
  induction l generalizing a with
  | nil => simp [template.range, cat]
  | cons rec rest ih =>
    have h1 : template.execNodes fmt6 rec (w.Write a) template.polyline =
        (w.Write (a ++ template.polylineText), none) := by
      simp [template.execNodes, template.polyline, template.Node.exec,
        ResponseWriter.Write_Write]
    simp only [template.range]
    rw [h1]
    simp only
    rw [ih, List.map_cons, cat_cons, String.append_assoc]

theorem template.Execute_ok (fmt6 : Float64 → String) (records : Records)
    (h : ∀ p ∈ records.Data, 16 ≤ p.Time.length) (w : ResponseWriter) :
    template.Execute fmt6 w records =
      (w.Write (template.head ++ cat (records.Data.map (template.itemText fmt6)) ++
        template.middle ++ cat (records.Data.map fun _ => template.polylineText) ++
        template.tail), none) := by
  unfold template.Execute
  rw [template.range_item fmt6 records.Data h]
  simp only [ResponseWriter.Write_Write]
  rw [template.range_polyline]
  simp only [ResponseWriter.Write_Write]

theorem template.Execute_body (fmt6 : Float64 → String) (pre post : List Record)
    (rec : Record) (hpre : ∀ p ∈ pre, 16 ≤ p.Time.length) (hrec : 16 ≤ rec.Time.length)
    (w : ResponseWriter) :
    ∃ rest, (template.Execute fmt6 w ⟨pre ++ rec :: post⟩).1.body =
      w.body ++ (template.head ++ cat (pre.map (template.itemText fmt6)) ++
        template.itemText fmt6 rec) ++ rest := by
  have h1 : template.range fmt6 template.item (w.Write template.head) (pre ++ [rec]) =
      (w.Write (template.head ++ cat (pre.map (template.itemText fmt6)) ++
        template.itemText fmt6 rec), none) := by
    rw [template.range_item fmt6 (pre ++ [rec])]
    · simp only [List.map_append, List.map_cons, List.map_nil, cat_append, cat_cons, cat_nil,
        String.append_empty, String.append_assoc]
    · intro p hp
      rcases List.mem_append.mp hp with h | h
      · exact hpre p h
      · rw [List.mem_singleton.mp h]
        exact hrec
  have h2 : template.range fmt6 template.item (w.Write template.head) (pre ++ rec :: post) =
      template.range fmt6 template.item
        (w.Write (template.head ++ cat (pre.map (template.itemText fmt6)) ++
          template.itemText fmt6 rec)) post := by
    have := template.range_append fmt6 template.item (pre ++ [rec]) post _ _ h1
    simpa using this
  obtain ⟨x, hx⟩ := template.range_body fmt6 template.item post
    (w.Write (template.head ++ cat (pre.map (template.itemText fmt6)) ++
      template.itemText fmt6 rec))
  rw [ResponseWriter.Write_body] at hx
  unfold template.Execute
  simp only
  rw [h2]
  rcases hr : template.range fmt6 template.item
    (w.Write (template.head ++ cat (pre.map (template.itemText fmt6)) ++
      template.itemText fmt6 rec)) post with ⟨w1, err⟩
  rw [hr] at hx
  simp only at hx
  cases err with
  | some e => exact ⟨x, hx⟩
  | none =>
    simp only
    obtain ⟨y, hy⟩ := template.range_body fmt6 template.polyline (pre ++ rec :: post)
      (w1.Write template.middle)
    rw [ResponseWriter.Write_body] at hy
    rcases hp : template.range fmt6 template.polyline (w1.Write template.middle)
      (pre ++ rec :: post) with ⟨w2, err2⟩
    rw [hp] at hy
    simp only at hy
    cases err2 with
    | some e => exact ⟨x ++ (template.middle ++ y), by simp only [hy, hx, String.append_assoc]⟩
    | none =>
      exact ⟨x ++ (template.middle ++ y ++ template.tail), by
        simp only [ResponseWriter.Write_body, hy, hx, String.append_assoc]⟩

theorem template.itemText_timestamp (fmt6 : Float64 → String) (rec : Record)
    (y1 y2 y3 y4 m1 m2 d1 d2 h1 h2 n1 n2 s1 s2 : Char)
    (hdig : ∀ c ∈ [y1, y2, y3, y4, m1, m2, d1, d2, h1, h2, n1, n2, s1, s2], c.isDigit = true)
    (ht : rec.Time =
      ⟨[y1, y2, y3, y4, '-', m1, m2, '-', d1, d2, ' ', h1, h2, ':', n1, n2, ':', s1, s2]⟩) :
    template.itemText fmt6 rec =
      template.itemOpen ++ template.htmlEscape rec.Name ++ template.itemMid ++
        ⟨[d1, d2, '/', m1, m2, '/', y3, y4, ' ', h1, h2, ':', n1, n2]⟩ ++
        template.itemCoords ++ template.htmlEscape (fmt6 rec.Lat) ++ ", " ++
        template.htmlEscape (fmt6 rec.Lon) ++ template.itemClose := by
  simp only [List.mem_cons, List.mem_singleton, forall_eq_or_imp, forall_eq, List.not_mem_nil,
    IsEmpty.forall_iff, implies_true, and_true] at hdig
  obtain ⟨_, _, e3, e4, e5, e6, e7, e8, e9, e10, e11, e12, _, _⟩ := hdig
  apply String.ext
  simp [template.itemText, ht, template.htmlEscape, template.escapeByte_digit,
    template.escapeByte_colon, String.data_append, e3, e4, e5, e6, e7, e8, e9, e10, e11, e12]

theorem home_body (fmt6 : Float64 → String) (query : QueryResult) (recs : Records)
    (method body : String) (hq : Records.QueryLatest ⟨[]⟩ query = (recs, .ret none)) :
    ∃ x, (home fmt6 query .fresh ⟨method, "/", body⟩).w.body =
      (template.Execute fmt6 .fresh recs).1.body ++ x := by
  unfold home
  rw [hq]
  simp only [ne_eq, not_true_eq_false, ↓reduceIte]
  rcases hx : template.Execute fmt6 .fresh recs with ⟨w1, err⟩
  cases err with
  | none => exact ⟨"", by simp⟩
  | some e => exact ⟨_, http.Error_body w1 _ _⟩

theorem home_ok (fmt6 : Float64 → String) (query : QueryResult) (recs : Records)
    (method body : String) (hq : Records.QueryLatest ⟨[]⟩ query = (recs, .ret none))
    (h : ∀ p ∈ recs.Data, 16 ≤ p.Time.length) :
    home fmt6 query .fresh ⟨method, "/", body⟩ =
      ⟨⟨[], some 200, template.head ++ cat (recs.Data.map (template.itemText fmt6)) ++
        template.middle ++ cat (recs.Data.map fun _ => template.polylineText) ++
        template.tail⟩, none⟩ := by
  unfold home
  rw [hq]
  simp only [ne_eq, not_true_eq_false, ↓reduceIte]
  rw [template.Execute_ok fmt6 recs h, ResponseWriter.Write_fresh]

/-! ## The statements of the specification, C1 to C10 -/

/-- C1: the validation gate accepts a record exactly when its latitude is a
non-zero value from -90 to 90, its longitude is a non-zero value from -180 to
180, its time is not empty and its vehicle is above zero; the name and the
color of the record have no influence on the outcome. -/
theorem C1_validation_gate (r : Record) :
    (validate.Struct r = [] ↔
      (∃ q, r.Lat = .fin q ∧ q ≠ 0 ∧ -90 ≤ q ∧ q ≤ 90) ∧
      (∃ q, r.Lon = .fin q ∧ q ≠ 0 ∧ -180 ≤ q ∧ q ≤ 180) ∧
      r.Time ≠ "" ∧ 0 < r.Vehicle) ∧
    ∀ name color : String,
      validate.Struct { r with Name := name, Color := color } = validate.Struct r :=
  ⟨validate.struct_eq_nil r, fun _ _ => rfl⟩

/-- C2: a POST request whose body decodes to a record with both coordinates
zero, or a latitude outside -90 to 90, or a longitude outside -180 to 180, or a
vehicle not above zero, or an empty time, is answered with status 400, and the
handle is left exactly as it was: `Insert` is not called (the count of `Exec`
calls is unchanged) and no row is added. -/
theorem C2_invalid_record_rejected (decode : String → Except Error Record) (db : DB)
    (r : Request) (record : Record)
    (hpost : r.Method = "POST") (hdec : decode r.Body = .ok record)
    (hbad : (record.Lat = .fin 0 ∧ record.Lon = .fin 0) ∨ record.Lat.within (-90) 90 = false ∨
      record.Lon.within (-180) 180 = false ∨ record.Vehicle ≤ 0 ∨ record.Time = "") :
    (records decode db .fresh r).1.status = some 400 ∧
    (records decode db .fresh r).2 = db ∧
    (records decode db .fresh r).2.execs = db.execs ∧
    (records decode db .fresh r).2.record = db.record := by
  have hv := validate.struct_ne_nil_of_bad record hbad
  simp [records, hpost, hdec, hv, http.Error_fresh]

/-- C2 at a concrete request: `vehicle: 0` in an otherwise valid body. -/
theorem C2_invalid_record_rejected_witness :
    (records (fun _ => .ok ⟨0, exampleLat, exampleLon,
        "2024-01-15 10:30:00", "", "", 0⟩)
      ⟨none, false, exampleText, [⟨1, "Truck A", "red"⟩], [], 0, by decide⟩ .fresh
      ⟨"POST", "/records", "body"⟩).1.status = some 400 ∧
    (records (fun _ => .ok ⟨0, exampleLat, exampleLon,
        "2024-01-15 10:30:00", "", "", 0⟩)
      ⟨none, false, exampleText, [⟨1, "Truck A", "red"⟩], [], 0, by decide⟩ .fresh
      ⟨"POST", "/records", "body"⟩).2.record = [] :=
  have h := C2_invalid_record_rejected
    (fun _ => .ok ⟨0, exampleLat, exampleLon,
        "2024-01-15 10:30:00", "", "", 0⟩)
    ⟨none, false, exampleText, [⟨1, "Truck A", "red"⟩], [], 0, by decide⟩
    ⟨"POST", "/records", "body"⟩ _ rfl rfl (by decide)
  ⟨h.1, h.2.2.2⟩

/-- C3: the outcome of the ingestion handler is decided in this order.  A method
other than POST gives 405 with `Allow: POST`; otherwise a body that does not
decode gives 400; otherwise a record that fails validation gives 400; in these
three cases the handle is untouched.  Otherwise `Insert` is called, once: if it
returns an error the status is 500, else it is 201 with the body
`Record inserted successfully`.  In every case at most one `Exec` is made. -/
theorem C3_ingestion_outcome (decode : String → Except Error Record) (db : DB) (r : Request) :
    (r.Method ≠ "POST" →
      (records decode db .fresh r).1.status = some 405 ∧
      ("Allow", "POST") ∈ (records decode db .fresh r).1.header ∧
      (records decode db .fresh r).2 = db) ∧
    (r.Method = "POST" → ∀ e, decode r.Body = .error e →
      (records decode db .fresh r).1.status = some 400 ∧
      (records decode db .fresh r).2 = db) ∧
    (r.Method = "POST" → ∀ record, decode r.Body = .ok record → validate.Struct record ≠ [] →
      (records decode db .fresh r).1.status = some 400 ∧
      (records decode db .fresh r).2 = db) ∧
    (r.Method = "POST" → ∀ record, decode r.Body = .ok record → validate.Struct record = [] →
      ∀ e, (record.Insert db).1 = some e →
      (records decode db .fresh r).1.status = some 500 ∧
      (records decode db .fresh r).2 = (record.Insert db).2 ∧
      (records decode db .fresh r).2.execs = db.execs + 1) ∧
    (r.Method = "POST" → ∀ record, decode r.Body = .ok record → validate.Struct record = [] →
      (record.Insert db).1 = none →
      (records decode db .fresh r).1.status = some 201 ∧
      (records decode db .fresh r).1.body = "Record inserted successfully" ∧
      (records decode db .fresh r).2 = (record.Insert db).2 ∧
      (records decode db .fresh r).2.execs = db.execs + 1) ∧
    ((records decode db .fresh r).2.execs = db.execs ∨
      (records decode db .fresh r).2.execs = db.execs + 1) := by
  refine ⟨?_, ?_, ?_, ?_, ?_, ?_⟩
  · intro hm
    simp [records, hm, http.Error_allow]
  · intro hm e he
    simp [records, hm, he, http.Error_fresh]
  · intro hm record hd hv
    simp [records, hm, hd, hv, http.Error_fresh]
  · intro hm record hd hv e he
    have hx := Record.Insert_execs record db
    rcases hi : record.Insert db with ⟨err, db1⟩
    rw [hi] at he hx
    simp only at he hx
    subst he
    simp [records, hm, hd, hv, hi, http.Error_fresh, hx]
  · intro hm record hd hv he
    have hx := Record.Insert_execs record db
    rcases hi : record.Insert db with ⟨err, db1⟩
    rw [hi] at he hx
    simp only at he hx
    subst he
    simp [records, hm, hd, hv, hi, hx, ResponseWriter.fresh, ResponseWriter.WriteHeader,
      ResponseWriter.Write]
  · by_cases hm : r.Method = "POST"
    · cases hd : decode r.Body with
      | error e => simp [records, hm, hd]
      | ok record =>
        by_cases hv : validate.Struct record = []
        · have hx := Record.Insert_execs record db
          rcases hi : record.Insert db with ⟨err, db1⟩
          rw [hi] at hx
          simp only at hx
          cases err <;> simp [records, hm, hd, hv, hi, hx]
        · simp [records, hm, hd, hv]
    · simp [records, hm]

/-- C3 at the scenario of the specification: the record of vehicle 1 posted to a
store that holds the vehicle is answered 201 with the confirmation. -/
theorem C3_ingestion_outcome_witness :
    (records (fun _ => .ok ⟨0, exampleLat, exampleLon,
        "2024-01-15 10:30:00", "", "", 1⟩)
      ⟨none, true, exampleText, [⟨1, "Truck A", "red"⟩], [], 0, by decide⟩ .fresh
      ⟨"POST", "/records", "body"⟩).1.status = some 201 ∧
    (records (fun _ => .ok ⟨0, exampleLat, exampleLon,
        "2024-01-15 10:30:00", "", "", 1⟩)
      ⟨none, true, exampleText, [⟨1, "Truck A", "red"⟩], [], 0, by decide⟩ .fresh
      ⟨"POST", "/records", "body"⟩).1.body = "Record inserted successfully" :=
  have h := (C3_ingestion_outcome
    (fun _ => .ok ⟨0, exampleLat, exampleLon,
        "2024-01-15 10:30:00", "", "", 1⟩)
    ⟨none, true, exampleText, [⟨1, "Truck A", "red"⟩], [], 0, by decide⟩
    ⟨"POST", "/records", "body"⟩).2.2.2.2.1 rfl _ rfl (by decide) (by decide)
  ⟨h.1, h.2.1⟩

/-- C4: when `QueryLatest`, called on an empty `Records` value, returns without
error, `Data` holds at most five records, in order of non-increasing time; each
of them is a row of `record` joined to the vehicle it references and carries
the name and the color of that vehicle; and every such joined row that is
missing from `Data` is no more recent than any record in `Data`, which is then
full.  On a reachable store with no rows in `record`, `Data` is empty and the
error is nil. -/
theorem C4_query_latest (db : DB) :
    ((Records.QueryLatest ⟨[]⟩ db.Query).2 = .ret none →
      (Records.QueryLatest ⟨[]⟩ db.Query).1.Data.length ≤ 5 ∧
      (Records.QueryLatest ⟨[]⟩ db.Query).1.Data.Pairwise
        (fun a b => bytesLE b.Time.data a.Time.data = true) ∧
      (∀ d ∈ (Records.QueryLatest ⟨[]⟩ db.Query).1.Data,
        ∃ row ∈ db.record, ∃ v ∈ db.vehicle, v.Id = row.vehicle ∧
          d.Id = row.id ∧ d.Time = row.time ∧ d.Vehicle = row.vehicle ∧
          d.Lat = (strconv.ParseFloat row.lat).1 ∧ d.Lon = (strconv.ParseFloat row.lon).1 ∧
          d.Name = v.Name ∧ d.Color = v.Color) ∧
      (∀ row ∈ db.record, ∀ v ∈ db.vehicle, v.Id = row.vehicle →
        (selected (row, v)).record ∈ (Records.QueryLatest ⟨[]⟩ db.Query).1.Data ∨
        ((Records.QueryLatest ⟨[]⟩ db.Query).1.Data.length = 5 ∧
          ∀ d ∈ (Records.QueryLatest ⟨[]⟩ db.Query).1.Data,
            bytesLE row.time.data d.Time.data = true))) ∧
    (db.down = none → db.record = [] →
      Records.QueryLatest ⟨[]⟩ db.Query = (⟨[]⟩, .ret none)) := by
  constructor
  · intro hret
    cases hd : db.down with
    | some e =>
      rw [QueryLatest_down db e hd] at hret
      exact absurd hret (by simp)
    | none =>
      rw [QueryLatest_up db hd]
      refine ⟨?_, ?_, ?_, ?_⟩
      · simpa using db.latest_length
      · simp only [List.pairwise_map]
        exact db.latest_sorted
      · intro d hdm
        obtain ⟨p, hp, rfl⟩ := List.mem_map.mp hdm
        obtain ⟨h1, h2, h3⟩ := (db.mem_joined p).mp (db.mem_latest p hp)
        exact ⟨p.1, h1, p.2, h2, h3, rfl, rfl, rfl, rfl, rfl, rfl, rfl⟩
      · intro row hrow v hv hid
        rcases db.latest_most_recent (row, v) ((db.mem_joined (row, v)).mpr ⟨hrow, hv, hid⟩)
          with h1 | ⟨h1, h2⟩
        · exact Or.inl (List.mem_map.mpr ⟨(row, v), h1, rfl⟩)
        · right
          refine ⟨by simpa using h1, ?_⟩
          intro d hdm
          obtain ⟨q, hq, rfl⟩ := List.mem_map.mp hdm
          exact h2 q hq
  · intro hd hrec
    rw [QueryLatest_up db hd]
    simp [DB.latest, DB.joined, hrec]

/-- C4 at a concrete store: six records of two vehicles and one record of a
vehicle that does not exist. -/
theorem C4_query_latest_witness :
    (Records.QueryLatest ⟨[]⟩
      (DB.Query ⟨none, false, exampleText, [⟨1, "Truck A", "red"⟩, ⟨2, "Van B", "blue"⟩],
        [⟨1, "2.81954", "-60.6714", "2024-01-15 10:31:00", 1⟩,
         ⟨2, "2.81954", "-60.6714", "2024-01-15 10:36:00", 2⟩,
         ⟨3, "2.81954", "-60.6714", "2024-01-15 10:33:00", 1⟩,
         ⟨4, "2.81954", "-60.6714", "2024-01-15 10:39:00", 9⟩,
         ⟨5, "2.81954", "-60.6714", "2024-01-15 10:32:00", 2⟩,
         ⟨6, "2.81954", "-60.6714", "2024-01-15 10:35:00", 1⟩,
         ⟨7, "2.81954", "-60.6714", "2024-01-15 10:34:00", 2⟩], 0, by decide⟩)).1.Data.length ≤ 5 ∧
    (Records.QueryLatest ⟨[]⟩
      (DB.Query ⟨none, false, exampleText, [⟨1, "Truck A", "red"⟩, ⟨2, "Van B", "blue"⟩],
        [⟨1, "2.81954", "-60.6714", "2024-01-15 10:31:00", 1⟩,
         ⟨2, "2.81954", "-60.6714", "2024-01-15 10:36:00", 2⟩,
         ⟨3, "2.81954", "-60.6714", "2024-01-15 10:33:00", 1⟩,
         ⟨4, "2.81954", "-60.6714", "2024-01-15 10:39:00", 9⟩,
         ⟨5, "2.81954", "-60.6714", "2024-01-15 10:32:00", 2⟩,
         ⟨6, "2.81954", "-60.6714", "2024-01-15 10:35:00", 1⟩,
         ⟨7, "2.81954", "-60.6714", "2024-01-15 10:34:00", 2⟩], 0, by decide⟩)).1.Data.map
        (fun d => (d.Id, d.Time, d.Name)) =
      [(2, "2024-01-15 10:36:00", "Van B"), (6, "2024-01-15 10:35:00", "Truck A"),
       (7, "2024-01-15 10:34:00", "Van B"), (3, "2024-01-15 10:33:00", "Truck A"),
       (5, "2024-01-15 10:32:00", "Van B")] :=
  ⟨((C4_query_latest ⟨none, false, exampleText, [⟨1, "Truck A", "red"⟩, ⟨2, "Van B", "blue"⟩],
        [⟨1, "2.81954", "-60.6714", "2024-01-15 10:31:00", 1⟩,
         ⟨2, "2.81954", "-60.6714", "2024-01-15 10:36:00", 2⟩,
         ⟨3, "2.81954", "-60.6714", "2024-01-15 10:33:00", 1⟩,
         ⟨4, "2.81954", "-60.6714", "2024-01-15 10:39:00", 9⟩,
         ⟨5, "2.81954", "-60.6714", "2024-01-15 10:32:00", 2⟩,
         ⟨6, "2.81954", "-60.6714", "2024-01-15 10:35:00", 1⟩,
         ⟨7, "2.81954", "-60.6714", "2024-01-15 10:34:00", 2⟩], 0, by decide⟩).1 (by decide!)).1,
    by decide!⟩

/-- C5, refuted as stated: a result set whose first row scans and whose second
row fails to scan makes `QueryLatest` return a non-nil error while the
`Records` value holds the record built from the first row during that call. -/
theorem C5_counterexample :
    Records.QueryLatest ⟨[]⟩
      (.ok ⟨[.ok ⟨1, "2.5", "-60.5", "2024-01-15 10:30:00", 1, "Truck A", "red"⟩,
             .error "sql: Scan error on column index 5"], none⟩) =
      (⟨[⟨1, .fin (mkRat 5 2), .fin (mkRat (-121) 2), "2024-01-15 10:30:00", "Truck A", "red",
          1⟩]⟩,
        .ret (some "sql: Scan error on column index 5")) := by
  decide!

/-- C5, amended: when the scan of some row fails or the iteration of the rows
fails, `QueryLatest` returns a non-nil error, and the `Records` value holds what
it held before followed by exactly the records built from the rows scanned
before the failure; they are left in `Data`. -/
theorem C5_error_keeps_scanned_records (r : Records) (rows : Rows)
    (h : (∃ e, Except.error e ∈ rows.scans) ∨ rows.err ≠ none) :
    ∃ e, Records.QueryLatest r (.ok rows) =
      (⟨r.Data ++ scannedBefore rows.scans⟩, .ret (some e)) := by
  obtain ⟨e, he⟩ := loopError_of_failure rows.scans rows.err h
  exact ⟨e, by simp [Records.QueryLatest, scanLoop_eq, he]⟩

/-- C5, amended, at a concrete result set: two rows scan, then the iteration
fails. -/
theorem C5_error_keeps_scanned_records_witness :
    ∃ e, Records.QueryLatest ⟨[]⟩
      (.ok ⟨[.ok ⟨1, "2.5", "-60.5", "2024-01-15 10:30:00", 1, "Truck A", "red"⟩,
             .ok ⟨2, "2.5", "-60.5", "2024-01-15 10:31:00", 1, "Truck A", "red"⟩],
        some "database is locked"⟩) =
      (⟨[] ++ scannedBefore
          [.ok ⟨1, "2.5", "-60.5", "2024-01-15 10:30:00", 1, "Truck A", "red"⟩,
           .ok ⟨2, "2.5", "-60.5", "2024-01-15 10:31:00", 1, "Truck A", "red"⟩]⟩,
        .ret (some e)) :=
  C5_error_keeps_scanned_records ⟨[]⟩ _ (Or.inr (by decide))

/-- C6, where the code departs from it: when `db.Query` itself returns an error
(and so a nil rows handle), `home` on a request for the root path panics out of
`QueryLatest` and writes nothing: no status 500 and no message.  When instead
the query succeeds and a row scan or the iteration fails, the response is
status 500 with the fixed message alone. -/
theorem C6_query_error_panics (fmt6 : Float64 → String) (e : Error) (method body : String) :
    home fmt6 (.error e) .fresh ⟨method, "/", body⟩ = ⟨.fresh, some nilDeref⟩ ∧
    ∀ rows : Rows, ((∃ e1, Except.error e1 ∈ rows.scans) ∨ rows.err ≠ none) →
      home fmt6 (.ok rows) .fresh ⟨method, "/", body⟩ =
        ⟨⟨[("Content-Type", "text/plain; charset=utf-8"), ("X-Content-Type-Options", "nosniff")],
          some 500, "A problem occurred when querying the db\n"⟩, none⟩ := by
  constructor
  · simp [home, Records.QueryLatest]
  · intro rows h
    obtain ⟨e1, he⟩ := loopError_of_failure rows.scans rows.err h
    simp [home, Records.QueryLatest, scanLoop_eq, he, http.Error_fresh]

/-- C7, refuted as stated: on a store that already holds five records of
vehicle 1 with later times, a valid record of vehicle 1 is inserted without
error, and the `QueryLatest` that follows returns the five later records and
none with the time of the inserted one. -/
theorem C7_counterexample :
    validate.Struct ⟨0, exampleLat, exampleLon,
      "2024-01-15 10:30:00", "", "", 1⟩ = [] ∧
    ((⟨0, exampleLat, exampleLon,
      "2024-01-15 10:30:00", "", "", 1⟩ : Record).Insert
      ⟨none, true, exampleText, [⟨1, "Truck A", "red"⟩],
        [⟨1, "2.81954", "-60.6714", "2024-01-16 10:31:00", 1⟩,
         ⟨2, "2.81954", "-60.6714", "2024-01-16 10:32:00", 1⟩,
         ⟨3, "2.81954", "-60.6714", "2024-01-16 10:33:00", 1⟩,
         ⟨4, "2.81954", "-60.6714", "2024-01-16 10:34:00", 1⟩,
         ⟨5, "2.81954", "-60.6714", "2024-01-16 10:35:00", 1⟩], 0, by decide⟩).1 = none ∧
    (Records.QueryLatest ⟨[]⟩
      ((⟨0, exampleLat, exampleLon,
        "2024-01-15 10:30:00", "", "", 1⟩ : Record).Insert
        ⟨none, true, exampleText, [⟨1, "Truck A", "red"⟩],
          [⟨1, "2.81954", "-60.6714", "2024-01-16 10:31:00", 1⟩,
           ⟨2, "2.81954", "-60.6714", "2024-01-16 10:32:00", 1⟩,
           ⟨3, "2.81954", "-60.6714", "2024-01-16 10:33:00", 1⟩,
           ⟨4, "2.81954", "-60.6714", "2024-01-16 10:34:00", 1⟩,
           ⟨5, "2.81954", "-60.6714", "2024-01-16 10:35:00", 1⟩], 0, by decide⟩).2.Query).1.Data.map
        (fun d => (d.Id, d.Time)) =
      [(5, "2024-01-16 10:35:00"), (4, "2024-01-16 10:34:00"), (3, "2024-01-16 10:33:00"),
       (2, "2024-01-16 10:32:00"), (1, "2024-01-16 10:31:00")] ∧
    ¬ ∃ d ∈ (Records.QueryLatest ⟨[]⟩
      ((⟨0, exampleLat, exampleLon,
        "2024-01-15 10:30:00", "", "", 1⟩ : Record).Insert
        ⟨none, true, exampleText, [⟨1, "Truck A", "red"⟩],
          [⟨1, "2.81954", "-60.6714", "2024-01-16 10:31:00", 1⟩,
           ⟨2, "2.81954", "-60.6714", "2024-01-16 10:32:00", 1⟩,
           ⟨3, "2.81954", "-60.6714", "2024-01-16 10:33:00", 1⟩,
           ⟨4, "2.81954", "-60.6714", "2024-01-16 10:34:00", 1⟩,
           ⟨5, "2.81954", "-60.6714", "2024-01-16 10:35:00", 1⟩], 0, by decide⟩).2.Query).1.Data,
      d.Lat = exampleLat ∧ d.Lon = exampleLon ∧
      d.Time = "2024-01-15 10:30:00" ∧ d.Vehicle = 1 := by
  decide!

/-- C7, amended: on a reachable store, for a valid record `r` whose vehicle is
in table `vehicle`, whose coordinates come back from the store as text that
parses to them, and such that fewer than five joined rows of the store have a
time not before that of `r`, `Insert` returns no error and the `QueryLatest`
that follows holds a record with the latitude, longitude, time and vehicle of
`r`. -/
theorem C7_inserted_record_is_returned (db : DB) (r : Record)
    (hup : db.down = none) (hvalid : validate.Struct r = [])
    (hveh : ∃ v ∈ db.vehicle, v.Id = r.Vehicle)
    (hlat : (strconv.ParseFloat (db.text r.Lat)).1 = r.Lat)
    (hlon : (strconv.ParseFloat (db.text r.Lon)).1 = r.Lon)
    (hfew : (db.joined.filter fun p => bytesLE r.Time.data p.1.time.data).length < 5) :
    (r.Insert db).1 = none ∧
    ∃ d ∈ (Records.QueryLatest ⟨[]⟩ (r.Insert db).2.Query).1.Data,
      d.Lat = r.Lat ∧ d.Lon = r.Lon ∧ d.Time = r.Time ∧ d.Vehicle = r.Vehicle := by
  have _ := hvalid
  obtain ⟨h1, _, d, hd, e1, e2, e3, e4⟩ := QueryLatest_after_Insert db r hup hveh hfew
  exact ⟨h1, d, hd, e1.trans hlat, e2.trans hlon, e3, e4⟩

/-- C7, amended, at the scenario of the specification: the record of vehicle 1
at `2024-01-15 10:30:00` inserted into a store that holds the vehicle and no
record. -/
theorem C7_inserted_record_is_returned_witness :
    ((⟨0, exampleLat, exampleLon,
      "2024-01-15 10:30:00", "", "", 1⟩ : Record).Insert
      ⟨none, true, exampleText, [⟨1, "Truck A", "red"⟩], [], 0, by decide⟩).1 = none ∧
    ∃ d ∈ (Records.QueryLatest ⟨[]⟩
      ((⟨0, exampleLat, exampleLon,
        "2024-01-15 10:30:00", "", "", 1⟩ : Record).Insert
        ⟨none, true, exampleText, [⟨1, "Truck A", "red"⟩], [], 0, by decide⟩).2.Query).1.Data,
      d.Lat = exampleLat ∧ d.Lon = exampleLon ∧
      d.Time = "2024-01-15 10:30:00" ∧ d.Vehicle = 1 :=
  C7_inserted_record_is_returned
    ⟨none, true, exampleText, [⟨1, "Truck A", "red"⟩], [], 0, by decide⟩
    ⟨0, exampleLat, exampleLon,
      "2024-01-15 10:30:00", "", "", 1⟩
    rfl (by decide) ⟨⟨1, "Truck A", "red"⟩, List.mem_singleton.mpr rfl, rfl⟩
    (by decide!) (by decide!) (by decide)

/-- C8, refuted as stated: `QueryLatest` returns two records, the first with the
time `2024`, the second, of vehicle `Truck A`, with the time
`2024-01-15 10:30:00`.  The template fails on the first, and the body that
`home` writes is the head of the page, the start of the first item and the
error message: no list item is rendered for the second record, whose name and
date appear nowhere in the body. -/
theorem C8_counterexample :
    Records.QueryLatest ⟨[]⟩
      (.ok ⟨[.ok ⟨2, "2.5", "-60.5", "2024", 2, "Van B", "blue"⟩,
             .ok ⟨1, "2.5", "-60.5", "2024-01-15 10:30:00", 1, "Truck A", "red"⟩], none⟩) =
      (⟨[⟨2, .fin (mkRat 5 2), .fin (mkRat (-121) 2), "2024", "Van B", "blue", 2⟩,
         ⟨1, .fin (mkRat 5 2), .fin (mkRat (-121) 2), "2024-01-15 10:30:00", "Truck A", "red",
           1⟩]⟩, .ret none) ∧
    (home template.printf6
      (.ok ⟨[.ok ⟨2, "2.5", "-60.5", "2024", 2, "Van B", "blue"⟩,
             .ok ⟨1, "2.5", "-60.5", "2024-01-15 10:30:00", 1, "Truck A", "red"⟩], none⟩)
      .fresh ⟨"GET", "/", ""⟩).w.body =
      template.head ++ template.itemOpen ++ "Van B" ++ template.itemMid ++
        "A problem occurred when rendering the template\n" ∧
    ¬ "Truck A".data <:+: (home template.printf6
      (.ok ⟨[.ok ⟨2, "2.5", "-60.5", "2024", 2, "Van B", "blue"⟩,
             .ok ⟨1, "2.5", "-60.5", "2024-01-15 10:30:00", 1, "Truck A", "red"⟩], none⟩)
      .fresh ⟨"GET", "/", ""⟩).w.body.data ∧
    ¬ "15/01/24 10:30".data <:+: (home template.printf6
      (.ok ⟨[.ok ⟨2, "2.5", "-60.5", "2024", 2, "Van B", "blue"⟩,
             .ok ⟨1, "2.5", "-60.5", "2024-01-15 10:30:00", 1, "Truck A", "red"⟩], none⟩)
      .fresh ⟨"GET", "/", ""⟩).w.body.data := by
  decide!

/-- C8, amended: let `QueryLatest` return a list of records in which a record
`rec` has a time of the form `YYYY-MM-DD HH:MM:SS` and the records before it
have times of at least sixteen bytes.  Then the four slices of the template are the bytes 8
to 10, 5 to 7, 2 to 4 and 11 to 16 of the time of `rec`; the response body of
`home` for the root path begins with the head of the page, the items of the
records before `rec`, and the list item of `rec`, which is the fixed markup
around the (escaped) vehicle name, the date and time as `DD/MM/YY HH:MM`, and
the two formatted coordinates; and when the records after `rec` also have
times of at least sixteen bytes, `home` answers 200 with the whole page, one
item per record in order, and does not panic. -/
theorem C8_item_shows_name_and_time (fmt6 : Float64 → String) (query : QueryResult)
    (pre post : List Record) (rec : Record) (method body : String)
    (y1 y2 y3 y4 m1 m2 d1 d2 h1 h2 n1 n2 s1 s2 : Char)
    (hq : Records.QueryLatest ⟨[]⟩ query = (⟨pre ++ rec :: post⟩, .ret none))
    (hpre : ∀ p ∈ pre, 16 ≤ p.Time.length)
    (hdig : ∀ c ∈ [y1, y2, y3, y4, m1, m2, d1, d2, h1, h2, n1, n2, s1, s2], c.isDigit = true)
    (ht : rec.Time =
      ⟨[y1, y2, y3, y4, '-', m1, m2, '-', d1, d2, ' ', h1, h2, ':', n1, n2, ':', s1, s2]⟩) :
    template.slice rec.Time 8 10 = .ok ⟨[d1, d2]⟩ ∧
    template.slice rec.Time 5 7 = .ok ⟨[m1, m2]⟩ ∧
    template.slice rec.Time 2 4 = .ok ⟨[y3, y4]⟩ ∧
    template.slice rec.Time 11 16 = .ok ⟨[h1, h2, ':', n1, n2]⟩ ∧
    (∃ rest, (home fmt6 query .fresh ⟨method, "/", body⟩).w.body =
      template.head ++ cat (pre.map (template.itemText fmt6)) ++
        (template.itemOpen ++ template.htmlEscape rec.Name ++ template.itemMid ++
          ⟨[d1, d2, '/', m1, m2, '/', y3, y4, ' ', h1, h2, ':', n1, n2]⟩ ++
          template.itemCoords ++ template.htmlEscape (fmt6 rec.Lat) ++ ", " ++
          template.htmlEscape (fmt6 rec.Lon) ++ template.itemClose) ++ rest) ∧
    ((∀ p ∈ post, 16 ≤ p.Time.length) →
      (home fmt6 query .fresh ⟨method, "/", body⟩).w.status = some 200 ∧
      (home fmt6 query .fresh ⟨method, "/", body⟩).panicked = none ∧
      (home fmt6 query .fresh ⟨method, "/", body⟩).w.body =
        template.head ++ cat (pre.map (template.itemText fmt6)) ++
          (template.itemOpen ++ template.htmlEscape rec.Name ++ template.itemMid ++
            ⟨[d1, d2, '/', m1, m2, '/', y3, y4, ' ', h1, h2, ':', n1, n2]⟩ ++
            template.itemCoords ++ template.htmlEscape (fmt6 rec.Lat) ++ ", " ++
            template.htmlEscape (fmt6 rec.Lon) ++ template.itemClose) ++
          cat (post.map (template.itemText fmt6)) ++ template.middle ++
          cat ((pre ++ rec :: post).map fun _ => template.polylineText) ++ template.tail) := by
  have hrec : 16 ≤ rec.Time.length := by simp [ht, String.length]
  have hitem := template.itemText_timestamp fmt6 rec y1 y2 y3 y4 m1 m2 d1 d2 h1 h2 n1 n2 s1 s2
    hdig ht
  refine ⟨?_, ?_, ?_, ?_, ?_, ?_⟩
  · simp [template.slice, ht, String.length]
  · simp [template.slice, ht, String.length]
  · simp [template.slice, ht, String.length]
  · simp [template.slice, ht, String.length]
  · obtain ⟨x, hx⟩ := home_body fmt6 query ⟨pre ++ rec :: post⟩ method body hq
    obtain ⟨y, hy⟩ := template.Execute_body fmt6 pre post rec hpre hrec .fresh
    refine ⟨y ++ x, ?_⟩
    rw [hx, hy, ← hitem]
    simp [ResponseWriter.fresh, String.append_assoc]
  · intro hpost
    have hall : ∀ p ∈ (⟨pre ++ rec :: post⟩ : Records).Data, 16 ≤ p.Time.length := by
      intro p hp
      rcases List.mem_append.mp hp with h | h
      · exact hpre p h
      · rcases List.mem_cons.mp h with h | h
        · rw [h]
          exact hrec
        · exact hpost p h
    rw [home_ok fmt6 query ⟨pre ++ rec :: post⟩ method body hq hall]
    refine ⟨rfl, rfl, ?_⟩
    simp only [List.map_append, List.map_cons, cat_append, cat_cons, hitem,
      String.append_assoc]

/-- C8 at the scenario of the specification: the record of vehicle 1 at
`2024-01-15 10:30:00` is inserted into a store that holds the vehicle
`Truck A`, and `home` then answers 200 with the page whose one item shows
`Truck A`, `15/01/24 10:30` and the coordinates `(2.819540, -60.671400)`. -/
theorem C8_item_shows_name_and_time_witness :
    (home template.printf6
      ((⟨0, exampleLat, exampleLon, "2024-01-15 10:30:00", "", "", 1⟩ : Record).Insert
        ⟨none, true, exampleText, [⟨1, "Truck A", "red"⟩], [], 0, by decide⟩).2.Query
      .fresh ⟨"GET", "/", ""⟩).w.status = some 200 ∧
    (home template.printf6
      ((⟨0, exampleLat, exampleLon, "2024-01-15 10:30:00", "", "", 1⟩ : Record).Insert
        ⟨none, true, exampleText, [⟨1, "Truck A", "red"⟩], [], 0, by decide⟩).2.Query
      .fresh ⟨"GET", "/", ""⟩).w.body =
      template.head ++
        (template.itemOpen ++ "Truck A" ++ template.itemMid ++ "15/01/24 10:30" ++
          template.itemCoords ++ "2.819540" ++ ", " ++ "-60.671400" ++ template.itemClose) ++
        template.middle ++ template.polylineText ++ template.tail :=
  have h := (C8_item_shows_name_and_time template.printf6
    ((⟨0, exampleLat, exampleLon, "2024-01-15 10:30:00", "", "", 1⟩ : Record).Insert
      ⟨none, true, exampleText, [⟨1, "Truck A", "red"⟩], [], 0, by decide⟩).2.Query
    [] [] ⟨1, exampleLat, exampleLon, "2024-01-15 10:30:00", "Truck A", "red", 1⟩ "GET" ""
    '2' '0' '2' '4' '0' '1' '1' '5' '1' '0' '3' '0' '0' '0'
    (by decide!) (by simp) (by decide) rfl).2.2.2.2.2 (by simp)
  ⟨h.1, h.2.2.trans (by decide!)⟩

/-- C9, refuted as stated: the text `1e400` in the `lat` column fails to parse
(`ParseFloat` reports a range error), no error is returned and the record is
appended, but its `Lat` is positive infinity, not zero. -/
theorem C9_counterexample :
    (strconv.ParseFloat "1e400").2 = some .ErrRange ∧
    Records.QueryLatest ⟨[]⟩
      (.ok ⟨[.ok ⟨1, "1e400", "-60.5", "2024-01-15 10:30:00", 1, "Truck A", "red"⟩], none⟩) =
      (⟨[⟨1, .inf false, .fin (mkRat (-121) 2), "2024-01-15 10:30:00", "Truck A", "red", 1⟩]⟩,
        .ret none) := by
  decide!

/-- C9, amended: for every row that scans, whatever `ParseFloat` makes of the
text of its `lat` and `lon` columns, the row adds no error to the outcome of
`QueryLatest` and its record is appended to `Data`; when the text of `lat`
(respectively `lon`) is malformed the record has `Lat` (respectively `Lon`)
zero, and when it is a well-formed number out of range the record has the
infinity of the sign of the text: negative exactly when the text begins with
a minus sign. -/
theorem C9_parse_failure_is_silent (r : Records) (pre : List Scanned) (s : Scanned)
    (rest : List (Except Error Scanned)) (err : Option Error) :
    (Records.QueryLatest r (.ok ⟨(pre.map fun p => Except.ok p) ++ .ok s :: rest, err⟩)).2 =
      .ret (loopError rest err) ∧
    (Records.QueryLatest r (.ok ⟨(pre.map fun p => Except.ok p) ++ .ok s :: rest, err⟩)).1.Data =
      r.Data ++ pre.map Scanned.record ++ s.record :: scannedBefore rest ∧
    ((strconv.ParseFloat s.latitude).2 = some .ErrSyntax → s.record.Lat = .fin 0) ∧
    ((strconv.ParseFloat s.latitude).2 = some .ErrRange →
      s.record.Lat = .inf (decide (s.latitude.data.head? = some '-'))) ∧
    ((strconv.ParseFloat s.longitude).2 = some .ErrSyntax → s.record.Lon = .fin 0) ∧
    ((strconv.ParseFloat s.longitude).2 = some .ErrRange →
      s.record.Lon = .inf (decide (s.longitude.data.head? = some '-'))) := by
  refine ⟨?_, ?_, (strconv.ParseFloat_error s.latitude).1, (strconv.ParseFloat_error s.latitude).2,
    (strconv.ParseFloat_error s.longitude).1, (strconv.ParseFloat_error s.longitude).2⟩
  · simp [Records.QueryLatest, scanLoop_eq, loopError_append_ok, loopError]
  · simp [Records.QueryLatest, scanLoop_eq, scannedBefore_append_ok, scannedBefore]

/-- C9 at concrete rows: `abc` in the `lat` column gives latitude zero and
`-1e400` in the `lon` column gives longitude negative infinity; `1e400` gives
latitude positive infinity; texts that do parse keep their value, among them
the hexadecimal `0x1p-2` and `1_0` with a digit separator. -/
theorem C9_parse_failure_is_silent_witness :
    (⟨1, "abc", "-1e400", "2024-01-15 10:30:00", 1, "Truck A", "red"⟩ : Scanned).record.Lat =
      .fin 0 ∧
    (⟨1, "abc", "-1e400", "2024-01-15 10:30:00", 1, "Truck A", "red"⟩ : Scanned).record.Lon =
      .inf true ∧
    (⟨2, "1e400", "0x1p-2", "2024-01-15 10:30:00", 1, "Truck A", "red"⟩ : Scanned).record.Lat =
      .inf false ∧
    (⟨2, "1e400", "0x1p-2", "2024-01-15 10:30:00", 1, "Truck A", "red"⟩ : Scanned).record.Lon =
      .fin (mkRat 1 4) ∧
    (⟨3, "1_0", "1e-400", "2024-01-15 10:30:00", 1, "Truck A", "red"⟩ : Scanned).record.Lat =
      .fin 10 ∧
    (⟨3, "1_0", "1e-400", "2024-01-15 10:30:00", 1, "Truck A", "red"⟩ : Scanned).record.Lon =
      .fin 0 :=
  have h1 := C9_parse_failure_is_silent ⟨[]⟩ []
    ⟨1, "abc", "-1e400", "2024-01-15 10:30:00", 1, "Truck A", "red"⟩ [] none
  have h2 := C9_parse_failure_is_silent ⟨[]⟩ []
    ⟨2, "1e400", "0x1p-2", "2024-01-15 10:30:00", 1, "Truck A", "red"⟩ [] none
  ⟨h1.2.2.1 (by decide!), (h1.2.2.2.2.2 (by decide!)).trans (by decide!),
    (h2.2.2.2.1 (by decide!)).trans (by decide!), by decide!, by decide!, by decide!⟩

/-- C10: for a record that the validation gate accepts and whose time is
shorter than sixteen bytes, the time is not empty, yet `Execute` returns an
error for every `Records` value that holds a record with that time; and once
the record is inserted into a reachable store that holds its vehicle and fewer
than five joined rows at least as recent, `QueryLatest` returns a record with
its time, the template fails on it, and `home` ends in its rendering-failure
branch instead of producing the page. -/
theorem C10_short_time_does_not_render (fmt6 : Float64 → String) (r : Record)
    (hvalid : validate.Struct r = []) (hlen : r.Time.length < 16) :
    r.Time ≠ "" ∧
    (∀ w records, (∃ d ∈ records.Data, d.Time = r.Time) →
      (template.Execute fmt6 w records).2 ≠ none) ∧
    (∀ (db : DB) (method body : String), db.down = none →
      (∃ v ∈ db.vehicle, v.Id = r.Vehicle) →
      (db.joined.filter fun p => bytesLE r.Time.data p.1.time.data).length < 5 →
      (r.Insert db).1 = none ∧
      (∃ d ∈ (Records.QueryLatest ⟨[]⟩ (r.Insert db).2.Query).1.Data, d.Time = r.Time) ∧
      (template.Execute fmt6 .fresh
        (Records.QueryLatest ⟨[]⟩ (r.Insert db).2.Query).1).2 ≠ none ∧
      home fmt6 (r.Insert db).2.Query .fresh ⟨method, "/", body⟩ =
        ⟨http.Error
          (template.Execute fmt6 .fresh (Records.QueryLatest ⟨[]⟩ (r.Insert db).2.Query).1).1
          "A problem occurred when rendering the template" 500, none⟩) := by
  refine ⟨((validate.struct_eq_nil r).mp hvalid).2.2.1,
    fun w records h => template.Execute_fails_of_time fmt6 r.Time hlen w records h, ?_⟩
  intro db method body hup hveh hfew
  obtain ⟨h1, h2, d, hd, _, _, e3, _⟩ := QueryLatest_after_Insert db r hup hveh hfew
  have hfail := template.Execute_fails_of_time fmt6 r.Time hlen .fresh
    (Records.QueryLatest ⟨[]⟩ (r.Insert db).2.Query).1 ⟨d, hd, e3⟩
  exact ⟨h1, ⟨d, hd, e3⟩, hfail,
    home_render_failure fmt6 _ _ method body (Prod.ext rfl h2) hfail⟩

/-- C10 at a concrete record: the time `2024-01-15` is accepted by the gate,
the record is stored in a store that held only its vehicle, and the page does
not render. -/
theorem C10_short_time_does_not_render_witness :
    validate.Struct ⟨0, exampleLat, exampleLon, "2024-01-15",
      "", "", 1⟩ = [] ∧
    (template.Execute template.printf6 .fresh
      (Records.QueryLatest ⟨[]⟩
        ((⟨0, exampleLat, exampleLon, "2024-01-15",
          "", "", 1⟩ : Record).Insert
          ⟨none, true, exampleText, [⟨1, "Truck A", "red"⟩], [], 0, by decide⟩).2.Query).1).2 ≠ none :=
  ⟨by decide,
    ((C10_short_time_does_not_render template.printf6
      ⟨0, exampleLat, exampleLon, "2024-01-15",
        "", "", 1⟩ (by decide) (by decide)).2.2
      ⟨none, true, exampleText, [⟨1, "Truck A", "red"⟩], [], 0, by decide⟩ "GET" "" rfl
      ⟨⟨1, "Truck A", "red"⟩, List.mem_singleton.mpr rfl, rfl⟩ (by decide)).2.2.1⟩

end Tcc
